import Mathlib

/-!
Shallow embedding of the Lite³ core (`src/vendor/lite3/src/lite3.c` and
`src/vendor/lite3/include/lite3.h`) over byte buffers modelled as `List Nat`
(each element one byte), with machine arithmetic made explicit via `% 2^w`.
The default build configuration is modelled: `LITE3_NODE_SIZE = 96`,
`LITE3_TREE_HEIGHT_MAX = 9`, `LITE3_HASH_PROBE_MAX = 128`, and the
`LITE3_ZERO_MEM_DELETED` / `LITE3_ZERO_MEM_EXTRA` options enabled with fill
byte `0x00` (both are defined by default in the header).
-/

namespace Lite3

/-- Error kinds: the `errno` values the core assigns on failure
(`EINVAL`, `ENOENT`, `ENOBUFS`, `EFAULT`, `EBADMSG`). -/
inductive Err where
  | einval
  | enoent
  | enobufs
  | efault
  | ebadmsg
deriving DecidableEq, Repr

deriving instance DecidableEq for Except

/-- A byte buffer: memory modelled as a total map from byte offsets to byte
values. The engine's own bounds checks (`bufsz`, `buflen`) are part of the
embedded code, exactly as in the source. -/
abbrev Buf := Nat → Nat

/-- A buffer whose initial contents are the bytes of `l` (zeros beyond). -/
def listBuf (l : List Nat) : Buf := fun j => l.getD j 0

/-- `LITE3_NODE_SIZE` (default configuration). -/
def LITE3_NODE_SIZE : Nat := 96

/-- `LITE3_NODE_SIZE_KC_OFFSET`: byte offset of `size_kc` inside a node. -/
def LITE3_NODE_SIZE_KC_OFFSET : Nat := 32

/-- `LITE3_TREE_HEIGHT_MAX` for the default 96-byte node. -/
def LITE3_TREE_HEIGHT_MAX : Nat := 9

/-- `LITE3_HASH_PROBE_MAX` (default). -/
def LITE3_HASH_PROBE_MAX : Nat := 128

/-- `LITE3_NODE_KEY_COUNT_MAX = sizeof(node.hashes)/4 = 7`. -/
def LITE3_NODE_KEY_COUNT_MAX : Nat := 7

/-- `LITE3_NODE_KEY_COUNT_MIN = LITE3_NODE_KEY_COUNT_MAX / 2` (C integer division). -/
def LITE3_NODE_KEY_COUNT_MIN : Nat := LITE3_NODE_KEY_COUNT_MAX / 2

/-- `LITE3_NODE_KEY_COUNT_MASK` for the default node size: 3 LSB. -/
def LITE3_NODE_KEY_COUNT_MASK : Nat := 7

/-- `LITE3_NODE_SIZE_SHIFT`: the subtree entry count is `size_kc >> 6`. -/
def LITE3_NODE_SIZE_SHIFT : Nat := 6

/-- `LITE3_VAL_SIZE = sizeof(lite3_val)` = 1 byte (the type tag). -/
def LITE3_VAL_SIZE : Nat := 1

/-- `LITE3_BUF_SIZE_MAX = UINT32_MAX`. -/
def LITE3_BUF_SIZE_MAX : Nat := 2 ^ 32 - 1

/-- Numeric value of `LITE3_TYPE_OBJECT`. -/
def LITE3_TYPE_OBJECT : Nat := 6

/-- Numeric value of `LITE3_TYPE_ARRAY`. -/
def LITE3_TYPE_ARRAY : Nat := 7

/-- Numeric value of `LITE3_TYPE_INVALID`. -/
def LITE3_TYPE_INVALID : Nat := 8

/-- `lite3_type_sizes[]`: payload byte counts per type tag
(null, bool, i64, f64, bytes, string, object, array, invalid). -/
def lite3_type_sizes (t : Nat) : Nat :=
  match t with
  | 0 => 0
  | 1 => 1
  | 2 => 8
  | 3 => 8
  | 4 => 4
  | 5 => 4
  | 6 => LITE3_NODE_SIZE - LITE3_VAL_SIZE
  | 7 => LITE3_NODE_SIZE - LITE3_VAL_SIZE
  | _ => 0

/-- Read one byte (C dereference of `buf + i`). A memory byte is always
below 256, hence the normalization. -/
def byteAt (buf : Buf) (i : Nat) : Nat := buf i % 256

/-- Store one byte (C assignment to `buf[i]`). -/
def setB (buf : Buf) (i v : Nat) : Buf := fun j => if j = i then v else buf j

/-- Little-endian read of `n` bytes starting at `ofs` (models `memcpy` into an
integer variable on a little-endian target). -/
def readLE (buf : Buf) (ofs : Nat) : Nat → Nat
  | 0 => 0
  | n + 1 => byteAt buf ofs + 256 * readLE buf (ofs + 1) n

/-- Read a `uint32_t` at byte offset `ofs`. -/
def readU32 (buf : Buf) (ofs : Nat) : Nat := readLE buf ofs 4

/-- Little-endian write of `n` bytes of `v` starting at `ofs`. -/
def writeLE (buf : Buf) (ofs : Nat) : Nat → Nat → Buf
  | 0, _ => buf
  | n + 1, v => writeLE (setB buf ofs (v % 256)) (ofs + 1) n (v / 256)

/-- Write a `uint32_t` at byte offset `ofs` (value truncated mod 2^32). -/
def writeU32 (buf : Buf) (ofs v : Nat) : Buf := writeLE buf ofs 4 (v % 2 ^ 32)

/-- `memset(buf + ofs, 0x00, n)` (the configured `LITE3_ZERO_MEM_8` is 0). -/
def memsetZ (buf : Buf) (ofs : Nat) : Nat → Buf
  | 0 => buf
  | n + 1 => memsetZ (setB buf ofs 0) (ofs + 1) n

/-- `memcpy(buf + dst, buf + src, n)` within one buffer (regions the code
copies never overlap: the destination is past the used length). -/
def memcpyWithin (buf : Buf) (dst src : Nat) : Nat → Buf
  | 0 => buf
  | n + 1 => memcpyWithin (setB buf dst (byteAt buf src)) (dst + 1) (src + 1) n

/-- Write the bytes of `bs` starting at `ofs`. -/
def writeBytes (buf : Buf) (ofs : Nat) : List Nat → Buf
  | [] => buf
  | b :: bs => writeBytes (setB buf ofs b) (ofs + 1) bs

/-- `memcmp(buf + ofs, bs, n) == 0`: the first `n` bytes agree. -/
def memcmpEq (buf : Buf) (ofs : Nat) (bs : List Nat) : Nat → Bool
  | 0 => true
  | n + 1 => (byteAt buf ofs == bs.getD 0 0) && memcmpEq buf (ofs + 1) bs.tail n

/-- 64-bit unsigned subtraction `a - b` (as `size_t` arithmetic wraps). -/
def sub64 (a b : Nat) : Nat := (a + (2 ^ 64 - b % 2 ^ 64)) % 2 ^ 64

/-- 32-bit unsigned subtraction `a - b`. -/
def sub32 (a b : Nat) : Nat := (a + (2 ^ 32 - b % 2 ^ 32)) % 2 ^ 32

/-- `struct lite3_key_data`: 32-bit hash plus byte size (including NUL). -/
structure KeyData where
  hash : Nat
  size : Nat
deriving DecidableEq, Repr

/-- A C key string is modelled as its byte list *without* the terminating NUL;
`keyBytes` is the in-memory representation including the NUL. -/
def keyBytes (key : List Nat) : List Nat := key ++ [0]

/-- `LITE3_DJB2_HASH_SEED`. -/
def LITE3_DJB2_HASH_SEED : Nat := 5381

/-- `lite3_get_key_data`: runtime DJB2 hash of the NUL-terminated key
(`hash = ((hash << 5) + hash) + byte` on `uint32_t`), and
`size = strlen(key) + 1`. -/
def lite3_get_key_data (key : List Nat) : KeyData :=
  { hash := key.foldl (fun h b => (h * 33 + b) % 2 ^ 32) LITE3_DJB2_HASH_SEED
    size := key.length + 1 }

/-- The key-tag size computed by `lite3_set_impl` / `lite3_get_impl`:
`(!!(size >> 14) << 1) + !!(size >> 6) + !!size`. -/
def key_tag_size (size : Nat) : Nat :=
  (if size >>> (16 - 2) ≠ 0 then 2 else 0) +
    (if size >>> (8 - 2) ≠ 0 then 1 else 0) +
    (if size ≠ 0 then 1 else 0)

/-- Result of `_verify_key`: advance past the key record, report a probe hash
collision, or fail. -/
inductive VerifyKeyRes where
  | ok (newOfs ktagOut : Nat)
  | coll
  | fail (e : Err)
deriving DecidableEq, Repr

/-- `_verify_key(buf, buflen, key, key_size, key_tag_size, &ofs, &out_tag)`.
`key = none` models a NULL key pointer (`key_size`/`ktag` passed as 0). -/
def verify_key (buf : Buf) (buflen : Nat) (key : Option (List Nat))
    (key_size ktag ofs : Nat) : VerifyKeyRes :=
  if 4 > buflen ∨ ofs > buflen - 4 then .fail .efault
  else
    let ktag' := byteAt buf ofs % 4 + 1
    if ktag ≠ 0 ∧ ktag ≠ ktag' then .fail .einval
    else
      let ksize' := readLE buf ofs ktag' >>> 2
      let ofs1 := ofs + ktag'
      if ksize' > buflen ∨ ofs1 > buflen - ksize' then .fail .efault
      else
        match key with
        | some k =>
            if key_size ≠ 0 ∧
                ¬ memcmpEq buf ofs1 (keyBytes k) (min key_size ksize') then .coll
            else .ok (ofs1 + ksize') ktag'
        | none => .ok (ofs1 + ksize') ktag'

/-- `_verify_val(buf, buflen, &ofs)`: returns the offset just past the value
entry, or fails. -/
def verify_val (buf : Buf) (buflen ofs : Nat) : Except Err Nat :=
  if LITE3_VAL_SIZE > buflen ∨ ofs > buflen - LITE3_VAL_SIZE then .error .efault
  else
    let t := byteAt buf ofs
    if t ≥ LITE3_TYPE_INVALID then .error .einval
    else
      let ves := LITE3_VAL_SIZE + lite3_type_sizes t
      if ves > buflen ∨ ofs > buflen - ves then .error .efault
      else
        if t = 5 ∨ t = 4 then
          let bc := readLE buf (ofs + LITE3_VAL_SIZE) 4
          let ves2 := ves + bc
          if ves2 > buflen ∨ ofs > buflen - ves2 then .error .efault
          else .ok (ofs + ves2)
        else .ok (ofs + ves)

/-- The linear hash scan inside a node:
`while (i < key_count && node->hashes[i] < h) i++;`.
The second argument counts the slots left (`key_count - i`), so `i < kc`
is exactly "the count is not yet exhausted". -/
def hashScan (buf : Buf) (nodeOfs h : Nat) : Nat → Nat → Nat
  | i, 0 => i
  | i, r + 1 =>
      if readU32 buf (nodeOfs + 4 + 4 * i) < h then hashScan buf nodeOfs h (i + 1) r
      else i

/-- Result of one probe attempt of `lite3_get_impl`'s inner tree walk. -/
inductive GetWalkRes where
  | found (valOfs : Nat)
  | coll
  | fail (e : Err)
deriving DecidableEq, Repr

/-- The inner `while (1)` tree walk of `lite3_get_impl` for one probe hash `h`.
`fuel` counts the descents still allowed (`LITE3_TREE_HEIGHT_MAX` minus the
`node_walks` already taken); exhausting it models
`++node_walks > LITE3_TREE_HEIGHT_MAX`. -/
def lite3_get_walk (buf : Buf) (buflen : Nat) (key : Option (List Nat))
    (keySize ktag h : Nat) : Nat → Nat → GetWalkRes
  | nodeOfs, fuel =>
    let kc := readU32 buf (nodeOfs + LITE3_NODE_SIZE_KC_OFFSET) &&& LITE3_NODE_KEY_COUNT_MASK
    let i := hashScan buf nodeOfs h 0 kc
    if i < kc ∧ readU32 buf (nodeOfs + 4 + 4 * i) = h then
      let target := readU32 buf (nodeOfs + 36 + 4 * i)
      match key with
      | some k =>
          match verify_key buf buflen (some k) keySize ktag target with
          | .coll => .coll
          | .fail e => .fail e
          | .ok valStart _ =>
              match verify_val buf buflen valStart with
              | .error e => .fail e
              | .ok _ => .found valStart
      | none =>
          match verify_val buf buflen target with
          | .error e => .fail e
          | .ok _ => .found target
    else if readU32 buf (nodeOfs + 64) ≠ 0 then
      let nxt := readU32 buf (nodeOfs + 64 + 4 * i)
      if nxt % 4 ≠ 0 then .fail .ebadmsg
      else if nxt > sub64 buflen LITE3_NODE_SIZE then .fail .efault
      else
        match fuel with
        | 0 => .fail .ebadmsg
        | fuel + 1 => lite3_get_walk buf buflen key keySize ktag h nxt fuel
    else .fail .enoent

/-- The probe-attempt loop of `lite3_get_impl`. The second `Nat` argument is
the number of attempts remaining (`probe_attempts - attempt`). -/
def lite3_get_probe (buf : Buf) (buflen ofs : Nat) (key : Option (List Nat))
    (kd : KeyData) (ktag : Nat) (attempt : Nat) : Nat → Except Err Nat
  | 0 => .error .einval
  | r + 1 =>
    let h := (kd.hash + attempt * attempt) % 2 ^ 32
    if ofs % 4 ≠ 0 then .error .ebadmsg
    else
      match lite3_get_walk buf buflen key kd.size ktag h ofs LITE3_TREE_HEIGHT_MAX with
      | .found v => .ok v
      | .fail e => .error e
      | .coll => lite3_get_probe buf buflen ofs key kd ktag (attempt + 1) r

/-- `lite3_get_impl`: find the value entry for `key` (objects) or for the
index carried in `kd.hash` (arrays, `key = none`); returns the byte offset of
the value entry (`*out` as an offset into `buf`). -/
def lite3_get_impl (buf : Buf) (buflen ofs : Nat) (key : Option (List Nat))
    (kd : KeyData) : Except Err Nat :=
  let ktag := key_tag_size kd.size
  lite3_get_probe buf buflen ofs key kd ktag 0
    (if key.isSome then LITE3_HASH_PROBE_MAX else 1)

/-- `_lite3_init_impl`: write an empty node of container type `t` at `ofs`
(with the default `LITE3_ZERO_MEM_EXTRA`, `hashes` and `kv_ofs` are zeroed). -/
def _lite3_init_impl (buf : Buf) (ofs t : Nat) : Buf :=
  let buf := writeU32 buf ofs (t % 256)
  let buf := writeU32 buf (ofs + LITE3_NODE_SIZE_KC_OFFSET) 0
  let buf := memsetZ buf (ofs + 4) 28
  let buf := memsetZ buf (ofs + 36) 28
  memsetZ buf (ofs + 64) 32

/-- `lite3_init_obj`: initialize the buffer as a root object.
Returns the new buffer and the written-back used length. -/
def lite3_init_obj (buf : Buf) (bufsz : Nat) : Except Err (Buf × Nat) :=
  if bufsz < LITE3_NODE_SIZE then .error .einval
  else .ok (_lite3_init_impl buf 0 LITE3_TYPE_OBJECT, LITE3_NODE_SIZE)

/-- `lite3_init_arr`: initialize the buffer as a root array. -/
def lite3_init_arr (buf : Buf) (bufsz : Nat) : Except Err (Buf × Nat) :=
  if bufsz < LITE3_NODE_SIZE then .error .einval
  else .ok (_lite3_init_impl buf 0 LITE3_TYPE_ARRAY, LITE3_NODE_SIZE)

/-- `_lite3_verify_get`. -/
def _lite3_verify_get (buflen ofs : Nat) : Except Err Unit :=
  if buflen > LITE3_BUF_SIZE_MAX then .error .einval
  else if LITE3_NODE_SIZE > buflen ∨ ofs > buflen - LITE3_NODE_SIZE then .error .einval
  else .ok ()

/-- `_lite3_verify_obj_get`: also requires an object at `ofs` and a non-NULL
key. -/
def _lite3_verify_obj_get (buf : Buf) (buflen ofs : Nat)
    (key : Option (List Nat)) : Except Err Unit :=
  match _lite3_verify_get buflen ofs with
  | .error e => .error e
  | .ok _ =>
      if byteAt buf ofs ≠ LITE3_TYPE_OBJECT then .error .einval
      else if key.isNone then .error .einval
      else .ok ()

/-- `_lite3_verify_arr_get`. -/
def _lite3_verify_arr_get (buf : Buf) (buflen ofs : Nat) : Except Err Unit :=
  match _lite3_verify_get buflen ofs with
  | .error e => .error e
  | .ok _ =>
      if byteAt buf ofs ≠ LITE3_TYPE_ARRAY then .error .einval
      else .ok ()

/-- `_lite3_get_bool_impl`: typed read, `EINVAL` on a tag mismatch. -/
def _lite3_get_bool_impl (buf : Buf) (buflen ofs : Nat) (key : List Nat)
    (kd : KeyData) : Except Err Bool :=
  match _lite3_verify_obj_get buf buflen ofs (some key) with
  | .error e => .error e
  | .ok _ =>
      match lite3_get_impl buf buflen ofs (some key) kd with
      | .error e => .error e
      | .ok v =>
          if byteAt buf v ≠ 1 then .error .einval
          else .ok (byteAt buf (v + 1) ≠ 0)

/-- `_lite3_get_i64_impl`: typed read returning the 8 little-endian payload
bytes as one natural number (the `int64_t` bit pattern). -/
def _lite3_get_i64_impl (buf : Buf) (buflen ofs : Nat) (key : List Nat)
    (kd : KeyData) : Except Err Nat :=
  match _lite3_verify_obj_get buf buflen ofs (some key) with
  | .error e => .error e
  | .ok _ =>
      match lite3_get_impl buf buflen ofs (some key) kd with
      | .error e => .error e
      | .ok v =>
          if byteAt buf v ≠ 2 then .error .einval
          else .ok (readLE buf (v + 1) 8)

/-- `_lite3_get_f64_impl`: typed read returning the 8 payload bytes as the
`double` bit pattern. -/
def _lite3_get_f64_impl (buf : Buf) (buflen ofs : Nat) (key : List Nat)
    (kd : KeyData) : Except Err Nat :=
  match _lite3_verify_obj_get buf buflen ofs (some key) with
  | .error e => .error e
  | .ok _ =>
      match lite3_get_impl buf buflen ofs (some key) kd with
      | .error e => .error e
      | .ok v =>
          if byteAt buf v ≠ 3 then .error .einval
          else .ok (readLE buf (v + 1) 8)

/-- `lite3_count`: the subtree entry count stored in the high 26 bits of the
root node's `size_kc`. -/
def lite3_count (buf : Buf) (buflen ofs : Nat) : Except Err Nat :=
  match _lite3_verify_get buflen ofs with
  | .error e => .error e
  | .ok _ =>
      let t := byteAt buf ofs
      if ¬ (t = LITE3_TYPE_OBJECT ∨ t = LITE3_TYPE_ARRAY) then .error .einval
      else .ok (readU32 buf (ofs + LITE3_NODE_SIZE_KC_OFFSET) >>> LITE3_NODE_SIZE_SHIFT)

/-- Result of the inner tree walk of `lite3_set_impl` for one probe hash.
Every constructor carries the (possibly mutated) buffer and used length,
because failed and collided attempts keep their partial writes. -/
inductive SetWalkRes where
  | done (buf : Buf) (buflen valOfs : Nat)
  | coll (buf : Buf) (buflen : Nat)
  | fail (buf : Buf) (buflen : Nat) (e : Err)

/-- Result of the node-split block inside `lite3_set_impl`. -/
inductive SplitRes where
  | cont (buf : Buf) (buflen nodeOfs : Nat)
  | skip (buf : Buf) (buflen pOfs iP : Nat)
  | fail (buf : Buf) (buflen : Nat) (e : Err)

/-- The descending shift of the parent's slots before the separator insert:
`for (j = key_count; j > i; j--) { hashes[j] = hashes[j-1]; kv_ofs[j] =
kv_ofs[j-1]; child_ofs[j+1] = child_ofs[j]; }`. -/
def shiftParentSlots (pOfs i : Nat) : Buf → Nat → Buf
  | buf, 0 => buf
  | buf, j + 1 =>
      if j + 1 > i then
        let buf := writeU32 buf (pOfs + 4 + 4 * (j + 1)) (readU32 buf (pOfs + 4 + 4 * j))
        let buf := writeU32 buf (pOfs + 36 + 4 * (j + 1)) (readU32 buf (pOfs + 36 + 4 * j))
        let buf := writeU32 buf (pOfs + 64 + 4 * (j + 2)) (readU32 buf (pOfs + 64 + 4 * (j + 1)))
        shiftParentSlots pOfs i buf j
      else buf

/-- The descending shift of a leaf's slots before a key insert (no child
offsets are shifted on this path). -/
def shiftLeafSlots (nodeOfs i : Nat) : Buf → Nat → Buf
  | buf, 0 => buf
  | buf, j + 1 =>
      if j + 1 > i then
        let buf := writeU32 buf (nodeOfs + 4 + 4 * (j + 1)) (readU32 buf (nodeOfs + 4 + 4 * j))
        let buf := writeU32 buf (nodeOfs + 36 + 4 * (j + 1)) (readU32 buf (nodeOfs + 36 + 4 * j))
        shiftLeafSlots nodeOfs i buf j
      else buf

/-- The copy loop of the split: move the upper `LITE3_NODE_KEY_COUNT_MIN`
keys (and their children) of `nodeOfs` into the sibling and zero the vacated
slots (`LITE3_ZERO_MEM_EXTRA`). `j` is the loop counter, the last argument
the remaining iterations. -/
def copyHalfSlots (buf : Buf) (sib nodeOfs j : Nat) : Nat → Buf
  | 0 => buf
  | n + 1 =>
      let buf := writeU32 buf (sib + 4 + 4 * j) (readU32 buf (nodeOfs + 4 + 4 * (j + 4)))
      let buf := writeU32 buf (sib + 36 + 4 * j) (readU32 buf (nodeOfs + 36 + 4 * (j + 4)))
      let buf := writeU32 buf (sib + 64 + 4 * (j + 1)) (readU32 buf (nodeOfs + 64 + 4 * (j + 5)))
      let buf := writeU32 buf (nodeOfs + 4 + 4 * (j + 4)) 0
      let buf := writeU32 buf (nodeOfs + 36 + 4 * (j + 4)) 0
      let buf := writeU32 buf (nodeOfs + 64 + 4 * (j + 5)) 0
      copyHalfSlots buf sib nodeOfs (j + 1) n

/-- The part of the split shared by the root and non-root cases: insert the
separator (the median key `node->hashes[LITE3_NODE_KEY_COUNT_MIN]`) into the
parent at slot `iP`, carve the sibling out of the upper half of `nodeOfs`,
and decide where the walk continues. On entry `buflen` is the offset of the
new sibling node. -/
def split_common (buf : Buf) (buflen ofs h nodeOfs pOfs iP kcP : Nat) : SplitRes :=
  let buf := shiftParentSlots pOfs iP buf kcP
  let buf := writeU32 buf (pOfs + 4 + 4 * iP) (readU32 buf (nodeOfs + 4 + 12))
  let buf := writeU32 buf (pOfs + 36 + 4 * iP) (readU32 buf (nodeOfs + 36 + 12))
  let buf := writeU32 buf (pOfs + 64 + 4 * (iP + 1)) (buflen % 2 ^ 32)
  let skcP := readU32 buf (pOfs + 32)
  let buf := writeU32 buf (pOfs + 32) ((skcP - skcP % 8) + (skcP + 1) % 8)
  let buf := writeU32 buf (nodeOfs + 4 + 12) 0
  let buf := writeU32 buf (nodeOfs + 36 + 12) 0
  let sib := buflen
  if sib % 4 ≠ 0 then .fail buf buflen .ebadmsg
  else
    let buf := memsetZ buf (sib + 4) 28
    let buf := memsetZ buf (sib + 36) 28
    let buf := writeU32 buf sib (readU32 buf ofs % 256)
    let buf := writeU32 buf (sib + 32) LITE3_NODE_KEY_COUNT_MIN
    let buf := writeU32 buf (nodeOfs + 32) LITE3_NODE_KEY_COUNT_MIN
    let buf := memsetZ buf (sib + 64) 32
    let buf := writeU32 buf (sib + 64) (readU32 buf (nodeOfs + 64 + 16))
    let buf := writeU32 buf (nodeOfs + 64 + 16) 0
    let buf := copyHalfSlots buf sib nodeOfs 0 LITE3_NODE_KEY_COUNT_MIN
    let buflen := buflen + LITE3_NODE_SIZE
    let ph := readU32 buf (pOfs + 4 + 4 * iP)
    if h > ph then
      if sib % 4 ≠ 0 then .fail buf buflen .ebadmsg
      else .cont buf buflen sib
    else if h = ph then .skip buf buflen pOfs iP
    else .cont buf buflen nodeOfs

/-- The buffer carried by a split result, whichever constructor it is. -/
def SplitRes.bufOf : SplitRes → Buf
  | .cont b _ _ => b
  | .skip b _ _ _ => b
  | .fail b _ _ => b

/-- The full-node split block of `lite3_set_impl`. `parent = none` means the
walk is still at the container root, which is split by moving its contents
to the (alignment-padded) tail and rewriting the in-place root as the new
parent. -/
def set_split (buf : Buf) (buflen ofs bufsz h : Nat)
    (parent : Option (Nat × Nat × Nat)) (nodeOfs : Nat) : SplitRes :=
  let bla := (buflen + 3) - (buflen + 3) % 4
  let nns := if parent.isSome then LITE3_NODE_SIZE else 2 * LITE3_NODE_SIZE
  if nns > bufsz ∨ bla > bufsz - nns then .fail buf buflen .enobufs
  else
    match parent with
    | none =>
        let buf := memcpyWithin buf bla nodeOfs LITE3_NODE_SIZE
        if bla % 4 ≠ 0 then .fail buf bla .ebadmsg
        else if ofs % 4 ≠ 0 then .fail buf bla .ebadmsg
        else
          let buf := memsetZ buf (ofs + 4) 28
          let buf := memsetZ buf (ofs + 36) 28
          let buf := memsetZ buf (ofs + 64) 32
          let skc := readU32 buf (ofs + 32)
          let buf := writeU32 buf (ofs + 32) (skc - skc % 8)
          let buf := writeU32 buf (ofs + 64) (bla % 2 ^ 32)
          split_common buf (bla + LITE3_NODE_SIZE) ofs h bla ofs 0 0
    | some (pOfs, iP, kcP) => split_common buf bla ofs h nodeOfs pOfs iP kcP

/-- The shared `insert_append` tail of `lite3_set_impl`: write the key-length
tag and the key bytes (objects only) at the current end, reserve the value
entry, and return its offset. -/
def set_insert_append (buf : Buf) (buflen : Nat) (key : Option (List Nat))
    (keySize ktag val_len : Nat) : Buf × Nat × Nat :=
  match key with
  | some k =>
      let tagv := (keySize <<< 2) ||| (ktag - 1)
      let buf := writeLE buf buflen ktag tagv
      let buflen := buflen + ktag
      let buf := writeBytes buf buflen ((keyBytes k).take keySize)
      let buflen := buflen + keySize
      (buf, buflen + LITE3_VAL_SIZE + val_len, buflen)
  | none => (buf, buflen + LITE3_VAL_SIZE + val_len, buflen)

/-- The `key_match_skip` block of `lite3_set_impl`: a slot with an equal hash
was found at index `i` of `nodeOfs`. Either overwrite in place (existing
entry at least as large), or relocate the entry to the tail; detect probe
collisions via the stored key bytes. With the default
`LITE3_ZERO_MEM_DELETED`, vacated bytes are zero-filled. -/
def set_key_match (buf : Buf) (buflen bufsz : Nat) (key : Option (List Nat))
    (keySize ktag val_len base_entry nodeOfs i : Nat) : SetWalkRes :=
  let keyStart := readU32 buf (nodeOfs + 36 + 4 * i)
  let afterKey : VerifyKeyRes :=
    match key with
    | some k => verify_key buf buflen (some k) keySize ktag keyStart
    | none => .ok keyStart 0
  match afterKey with
  | .coll => .coll buf buflen
  | .fail e => .fail buf buflen e
  | .ok valStart _ =>
      match verify_val buf buflen valStart with
      | .error e => .fail buf buflen e
      | .ok targetEnd =>
          if val_len ≥ targetEnd - valStart then
            let amask := if val_len = lite3_type_sizes LITE3_TYPE_OBJECT then 3 else 0
            let uvo := buflen + ktag + keySize
            let pad := ((uvo + amask) - (uvo + amask) % (amask + 1)) - uvo
            let es := base_entry + pad
            if es > bufsz ∨ buflen > bufsz - es then .fail buf buflen .enobufs
            else
              let buf := memsetZ buf keyStart (targetEnd - keyStart)
              let buf := memsetZ buf buflen pad
              let buflen := buflen + pad
              let buf := writeU32 buf (nodeOfs + 36 + 4 * i) buflen
              let r := set_insert_append buf buflen key keySize ktag val_len
              .done r.1 r.2.1 r.2.2
          else
            let buf := memsetZ buf valStart (targetEnd - valStart)
            .done buf buflen valStart

/-- The leaf-insert block of `lite3_set_impl`: make room in the leaf, append
the record at the tail, and bump the root's subtree entry count. -/
def set_leaf_insert (buf : Buf) (buflen ofs bufsz : Nat) (key : Option (List Nat))
    (keySize ktag h val_len base_entry nodeOfs i kc : Nat) : SetWalkRes :=
  let amask := if val_len = lite3_type_sizes LITE3_TYPE_OBJECT then 3 else 0
  let uvo := buflen + ktag + keySize
  let pad := ((uvo + amask) - (uvo + amask) % (amask + 1)) - uvo
  let es := base_entry + pad
  if es > bufsz ∨ buflen > bufsz - es then .fail buf buflen .enobufs
  else
    let buf := shiftLeafSlots nodeOfs i buf kc
    let buf := writeU32 buf (nodeOfs + 4 + 4 * i) h
    let skc := readU32 buf (nodeOfs + 32)
    let buf := writeU32 buf (nodeOfs + 32) ((skc - skc % 8) + (skc + 1) % 8)
    let buf := memsetZ buf buflen pad
    let buflen := buflen + pad
    let buf := writeU32 buf (nodeOfs + 36 + 4 * i) buflen
    let skcR := readU32 buf (ofs + 32)
    let buf := writeU32 buf (ofs + 32) (skcR % 64 + ((skcR >>> 6 + 1) <<< 6) % 2 ^ 32)
    let r := set_insert_append buf buflen key keySize ktag val_len
    .done r.1 r.2.1 r.2.2

/-- The inner `while (1)` walk of `lite3_set_impl` for one probe hash.
`parent` carries the parent node offset together with the scan index and
scan-time key count recorded at the descent, exactly the state the C code
keeps live for a later split. -/
def lite3_set_walk (ofs bufsz : Nat) (key : Option (List Nat))
    (keySize ktag h val_len base_entry : Nat) :
    Nat → Buf → Nat → Option (Nat × Nat × Nat) → Nat → SetWalkRes
  | fuel, buf, buflen, parent, nodeOfs =>
    let kcN := readU32 buf (nodeOfs + 32) &&& LITE3_NODE_KEY_COUNT_MASK
    let step : (Buf × Nat × Nat) ⊕ SetWalkRes :=
      if kcN = LITE3_NODE_KEY_COUNT_MAX then
        match set_split buf buflen ofs bufsz h parent nodeOfs with
        | .cont b l n => .inl (b, l, n)
        | .skip b l p ip =>
            .inr (set_key_match b l bufsz key keySize ktag val_len base_entry p ip)
        | .fail b l e => .inr (.fail b l e)
      else .inl (buf, buflen, nodeOfs)
    match step with
    | .inr r => r
    | .inl (buf, buflen, nodeOfs) =>
        let kc := readU32 buf (nodeOfs + 32) &&& LITE3_NODE_KEY_COUNT_MASK
        let i := hashScan buf nodeOfs h 0 kc
        if i < kc ∧ readU32 buf (nodeOfs + 4 + 4 * i) = h then
          set_key_match buf buflen bufsz key keySize ktag val_len base_entry nodeOfs i
        else if readU32 buf (nodeOfs + 64) ≠ 0 then
          let nxt := readU32 buf (nodeOfs + 64 + 4 * i)
          if nxt % 4 ≠ 0 then .fail buf buflen .ebadmsg
          else if nxt > sub64 buflen LITE3_NODE_SIZE then .fail buf buflen .efault
          else
            match fuel with
            | 0 => .fail buf buflen .ebadmsg
            | f + 1 =>
                lite3_set_walk ofs bufsz key keySize ktag h val_len base_entry
                  f buf buflen (some (nodeOfs, i, kc)) nxt
        else
          set_leaf_insert buf buflen ofs bufsz key keySize ktag h val_len
            base_entry nodeOfs i kc

/-- The probe-attempt loop of `lite3_set_impl`; buffer mutations from
collided attempts persist. -/
def lite3_set_probe (buf : Buf) (buflen ofs bufsz : Nat) (key : Option (List Nat))
    (kd : KeyData) (ktag base_entry val_len : Nat) (attempt : Nat) :
    Nat → Buf × Nat × Except Err Nat
  | 0 => (buf, buflen, .error .einval)
  | r + 1 =>
      let h := (kd.hash + attempt * attempt) % 2 ^ 32
      match lite3_set_walk ofs bufsz key kd.size ktag h val_len base_entry
          LITE3_TREE_HEIGHT_MAX buf buflen none ofs with
      | .done b l v => (b, l, .ok v)
      | .fail b l e => (b, l, .error e)
      | .coll b l =>
          lite3_set_probe b l ofs bufsz key kd ktag base_entry val_len (attempt + 1) r

/-- `lite3_set_impl`: increment the target root's generation, then walk the
tree and prepare the key/value entry; returns the new buffer, the new used
length, and the value-entry offset the caller writes the type tag and
payload to (or the error). -/
def lite3_set_impl (buf : Buf) (buflen ofs bufsz : Nat) (key : Option (List Nat))
    (kd : KeyData) (val_len : Nat) : Buf × Nat × Except Err Nat :=
  let ktag := key_tag_size kd.size
  let base_entry := ktag + kd.size + LITE3_VAL_SIZE + val_len
  if ofs % 4 ≠ 0 then (buf, buflen, .error .ebadmsg)
  else
    let gt := readU32 buf ofs
    let buf := writeU32 buf ofs (gt % 256 + ((gt >>> 8 + 1) <<< 8) % 2 ^ 32)
    lite3_set_probe buf buflen ofs bufsz key kd ktag base_entry val_len 0
      (if key.isSome then LITE3_HASH_PROBE_MAX else 1)

/-- `_lite3_verify_set`. -/
def _lite3_verify_set (buflen ofs bufsz : Nat) : Except Err Unit :=
  if bufsz > LITE3_BUF_SIZE_MAX then .error .einval
  else if buflen > bufsz then .error .einval
  else if LITE3_NODE_SIZE > buflen ∨ ofs > buflen - LITE3_NODE_SIZE then .error .einval
  else .ok ()

/-- `_lite3_verify_obj_set`: also requires an object at `ofs` and a non-NULL
key. -/
def _lite3_verify_obj_set (buf : Buf) (buflen ofs bufsz : Nat)
    (key : Option (List Nat)) : Except Err Unit :=
  match _lite3_verify_set buflen ofs bufsz with
  | .error e => .error e
  | .ok _ =>
      if byteAt buf ofs ≠ LITE3_TYPE_OBJECT then .error .einval
      else if key.isNone then .error .einval
      else .ok ()

/-- `_lite3_verify_arr_set`. -/
def _lite3_verify_arr_set (buf : Buf) (buflen ofs bufsz : Nat) : Except Err Unit :=
  match _lite3_verify_set buflen ofs bufsz with
  | .error e => .error e
  | .ok _ =>
      if byteAt buf ofs ≠ LITE3_TYPE_ARRAY then .error .einval
      else .ok ()

/-- `_lite3_set_null_impl` (after macro expansion of `lite3_set_null`). -/
def _lite3_set_null_impl (buf : Buf) (buflen ofs bufsz : Nat) (key : List Nat)
    (kd : KeyData) : Buf × Nat × Except Err Unit :=
  match _lite3_verify_obj_set buf buflen ofs bufsz (some key) with
  | .error e => (buf, buflen, .error e)
  | .ok _ =>
      match lite3_set_impl buf buflen ofs bufsz (some key) kd (lite3_type_sizes 0) with
      | (b, l, .error e) => (b, l, .error e)
      | (b, l, .ok v) => (setB b v 0, l, .ok ())

/-- `_lite3_set_bool_impl`. -/
def _lite3_set_bool_impl (buf : Buf) (buflen ofs bufsz : Nat) (key : List Nat)
    (kd : KeyData) (value : Bool) : Buf × Nat × Except Err Unit :=
  match _lite3_verify_obj_set buf buflen ofs bufsz (some key) with
  | .error e => (buf, buflen, .error e)
  | .ok _ =>
      match lite3_set_impl buf buflen ofs bufsz (some key) kd (lite3_type_sizes 1) with
      | (b, l, .error e) => (b, l, .error e)
      | (b, l, .ok v) =>
          let b := setB b v 1
          (setB b (v + 1) (if value then 1 else 0), l, .ok ())

/-- `_lite3_set_i64_impl`; `value` is the 8-byte little-endian bit pattern of
the `int64_t`. -/
def _lite3_set_i64_impl (buf : Buf) (buflen ofs bufsz : Nat) (key : List Nat)
    (kd : KeyData) (value : Nat) : Buf × Nat × Except Err Unit :=
  match _lite3_verify_obj_set buf buflen ofs bufsz (some key) with
  | .error e => (buf, buflen, .error e)
  | .ok _ =>
      match lite3_set_impl buf buflen ofs bufsz (some key) kd (lite3_type_sizes 2) with
      | (b, l, .error e) => (b, l, .error e)
      | (b, l, .ok v) =>
          let b := setB b v 2
          (writeLE b (v + 1) 8 value, l, .ok ())

/-- `_lite3_set_f64_impl`; `value` is the 8-byte bit pattern of the `double`. -/
def _lite3_set_f64_impl (buf : Buf) (buflen ofs bufsz : Nat) (key : List Nat)
    (kd : KeyData) (value : Nat) : Buf × Nat × Except Err Unit :=
  match _lite3_verify_obj_set buf buflen ofs bufsz (some key) with
  | .error e => (buf, buflen, .error e)
  | .ok _ =>
      match lite3_set_impl buf buflen ofs bufsz (some key) kd (lite3_type_sizes 3) with
      | (b, l, .error e) => (b, l, .error e)
      | (b, l, .ok v) =>
          let b := setB b v 3
          (writeLE b (v + 1) 8 value, l, .ok ())

/-- `lite3_set_obj_impl`: reserve a node-sized value slot, initialize it as
an empty object node and return its offset. -/
def lite3_set_obj_impl (buf : Buf) (buflen ofs bufsz : Nat)
    (key : Option (List Nat)) (kd : KeyData) : Buf × Nat × Except Err Nat :=
  match lite3_set_impl buf buflen ofs bufsz key kd (lite3_type_sizes LITE3_TYPE_OBJECT) with
  | (b, l, .error e) => (b, l, .error e)
  | (b, l, .ok v) => (_lite3_init_impl b v LITE3_TYPE_OBJECT, l, .ok v)

/-- `lite3_set_arr_impl`. -/
def lite3_set_arr_impl (buf : Buf) (buflen ofs bufsz : Nat)
    (key : Option (List Nat)) (kd : KeyData) : Buf × Nat × Except Err Nat :=
  match lite3_set_impl buf buflen ofs bufsz key kd (lite3_type_sizes LITE3_TYPE_ARRAY) with
  | (b, l, .error e) => (b, l, .error e)
  | (b, l, .ok v) => (_lite3_init_impl b v LITE3_TYPE_ARRAY, l, .ok v)

/-- `lite3_set_obj` (macro + `_lite3_verify_obj_set` + impl), with the key
data computed by the runtime hasher. -/
def lite3_set_obj (buf : Buf) (buflen ofs bufsz : Nat) (key : List Nat) :
    Buf × Nat × Except Err Nat :=
  match _lite3_verify_obj_set buf buflen ofs bufsz (some key) with
  | .error e => (buf, buflen, .error e)
  | .ok _ => lite3_set_obj_impl buf buflen ofs bufsz (some key) (lite3_get_key_data key)

/-- `_lite3_set_by_index`: array set, rejecting `index > count`. -/
def _lite3_set_by_index (buf : Buf) (buflen ofs bufsz index val_len : Nat) :
    Buf × Nat × Except Err Nat :=
  match _lite3_verify_arr_set buf buflen ofs bufsz with
  | .error e => (buf, buflen, .error e)
  | .ok _ =>
      let size := readU32 buf (ofs + LITE3_NODE_SIZE_KC_OFFSET) >>> LITE3_NODE_SIZE_SHIFT
      if index > size then (buf, buflen, .error .einval)
      else lite3_set_impl buf buflen ofs bufsz none ⟨index, 0⟩ val_len

/-- `_lite3_set_by_append`: array append (index = current count). -/
def _lite3_set_by_append (buf : Buf) (buflen ofs bufsz val_len : Nat) :
    Buf × Nat × Except Err Nat :=
  match _lite3_verify_arr_set buf buflen ofs bufsz with
  | .error e => (buf, buflen, .error e)
  | .ok _ =>
      let size := readU32 buf (ofs + LITE3_NODE_SIZE_KC_OFFSET) >>> LITE3_NODE_SIZE_SHIFT
      lite3_set_impl buf buflen ofs bufsz none ⟨size, 0⟩ val_len

/-- `lite3_arr_set_i64`. -/
def lite3_arr_set_i64 (buf : Buf) (buflen ofs bufsz index value : Nat) :
    Buf × Nat × Except Err Unit :=
  match _lite3_set_by_index buf buflen ofs bufsz index (lite3_type_sizes 2) with
  | (b, l, .error e) => (b, l, .error e)
  | (b, l, .ok v) =>
      let b := setB b v 2
      (writeLE b (v + 1) 8 value, l, .ok ())

/-- `lite3_arr_append_i64`. -/
def lite3_arr_append_i64 (buf : Buf) (buflen ofs bufsz value : Nat) :
    Buf × Nat × Except Err Unit :=
  match _lite3_set_by_append buf buflen ofs bufsz (lite3_type_sizes 2) with
  | (b, l, .error e) => (b, l, .error e)
  | (b, l, .ok v) =>
      let b := setB b v 2
      (writeLE b (v + 1) 8 value, l, .ok ())

/-- `lite3_arr_append_null`. -/
def lite3_arr_append_null (buf : Buf) (buflen ofs bufsz : Nat) :
    Buf × Nat × Except Err Unit :=
  match _lite3_set_by_append buf buflen ofs bufsz (lite3_type_sizes 0) with
  | (b, l, .error e) => (b, l, .error e)
  | (b, l, .ok v) => (setB b v 0, l, .ok ())

/-- `lite3_set_null` public entry: computes the key data and dispatches. -/
def lite3_set_null (buf : Buf) (buflen ofs bufsz : Nat) (key : List Nat) :
    Buf × Nat × Except Err Unit :=
  _lite3_set_null_impl buf buflen ofs bufsz key (lite3_get_key_data key)

/-- `lite3_set_bool` public entry. -/
def lite3_set_bool (buf : Buf) (buflen ofs bufsz : Nat) (key : List Nat)
    (value : Bool) : Buf × Nat × Except Err Unit :=
  _lite3_set_bool_impl buf buflen ofs bufsz key (lite3_get_key_data key) value

/-- `lite3_set_i64` public entry. -/
def lite3_set_i64 (buf : Buf) (buflen ofs bufsz : Nat) (key : List Nat)
    (value : Nat) : Buf × Nat × Except Err Unit :=
  _lite3_set_i64_impl buf buflen ofs bufsz key (lite3_get_key_data key) value

/-- `lite3_set_f64` public entry. -/
def lite3_set_f64 (buf : Buf) (buflen ofs bufsz : Nat) (key : List Nat)
    (value : Nat) : Buf × Nat × Except Err Unit :=
  _lite3_set_f64_impl buf buflen ofs bufsz key (lite3_get_key_data key) value

/-- `lite3_get_bool` public entry. -/
def lite3_get_bool (buf : Buf) (buflen ofs : Nat) (key : List Nat) :
    Except Err Bool :=
  _lite3_get_bool_impl buf buflen ofs key (lite3_get_key_data key)

/-- `lite3_get_i64` public entry. -/
def lite3_get_i64 (buf : Buf) (buflen ofs : Nat) (key : List Nat) :
    Except Err Nat :=
  _lite3_get_i64_impl buf buflen ofs key (lite3_get_key_data key)

/-- `lite3_get_f64` public entry. -/
def lite3_get_f64 (buf : Buf) (buflen ofs : Nat) (key : List Nat) :
    Except Err Nat :=
  _lite3_get_f64_impl buf buflen ofs key (lite3_get_key_data key)

/-- `struct lite3_iter` (default configuration: stacks of
`LITE3_TREE_HEIGHT_MAX + 1 = 10` slots). -/
structure Iter where
  gen : Nat
  depth : Nat
  node_ofs : List Nat
  node_i : List Nat
deriving DecidableEq, Repr

/-- The node offset at the iterator's current depth. -/
def iterNodeOfs (it : Iter) : Nat := it.node_ofs.getD it.depth 0

/-- The slot index at the iterator's current depth. -/
def iterNodeI (it : Iter) : Nat := it.node_i.getD it.depth 0

/-- The leftmost-descent loop of `lite3_iter_create_impl`; `fuel` is
`LITE3_TREE_HEIGHT_MAX - depth`, its exhaustion models
`++out->depth > LITE3_TREE_HEIGHT_MAX`. -/
def lite3_iter_descend (buf : Buf) (buflen : Nat) :
    Nat → Iter → Nat → Except Err Iter
  | fuel, it, nodeOfs =>
    if readU32 buf (nodeOfs + 64) ≠ 0 then
      let nxt := readU32 buf (nodeOfs + 64)
      if nxt % 4 ≠ 0 then .error .ebadmsg
      else
        match fuel with
        | 0 => .error .ebadmsg
        | f + 1 =>
            if nxt > sub64 buflen LITE3_NODE_SIZE then .error .efault
            else
              let it := { it with
                depth := it.depth + 1
                node_ofs := it.node_ofs.set (it.depth + 1) nxt
                node_i := it.node_i.set (it.depth + 1) 0 }
              lite3_iter_descend buf buflen f it nxt
    else .ok it

/-- `lite3_iter_create_impl`: capture the buffer generation (root node at
offset 0) and position at the leftmost leaf of the container at `ofs`. -/
def lite3_iter_create_impl (buf : Buf) (buflen ofs : Nat) : Except Err Iter :=
  if ofs % 4 ≠ 0 then .error .ebadmsg
  else
    let t := readU32 buf ofs &&& 255
    if ¬ (t = LITE3_TYPE_OBJECT ∨ t = LITE3_TYPE_ARRAY) then .error .einval
    else
      let it : Iter :=
        ⟨readU32 buf 0, 0, (List.replicate 10 0).set 0 (ofs % 2 ^ 32),
          List.replicate 10 0⟩
      lite3_iter_descend buf buflen LITE3_TREE_HEIGHT_MAX it ofs

/-- `lite3_iter_create` (public): bounds checks before the impl. -/
def lite3_iter_create (buf : Buf) (buflen ofs : Nat) : Except Err Iter :=
  match _lite3_verify_get buflen ofs with
  | .error e => .error e
  | .ok _ => lite3_iter_create_impl buf buflen ofs

/-- `struct lite3_str` as returned for keys by `lite3_iter_next` (the pointer
is modelled as a buffer offset). -/
structure Str3 where
  gen : Nat
  len : Nat
  ptrOfs : Nat
deriving DecidableEq, Repr

/-- Result of `lite3_iter_next`: `LITE3_ITER_ITEM` with the advanced
iterator, `LITE3_ITER_DONE`, or a negative return with its `errno`. -/
inductive IterNextRes where
  | item (it : Iter) (key : Option Str3) (valOfs : Option Nat)
  | done
  | fail (e : Err)
deriving DecidableEq, Repr

/-- The rightward descent loop of `lite3_iter_next` (travel to the leftmost
leaf of the consumed slot's right subtree). -/
def iter_next_descend (buf : Buf) (buflen : Nat) :
    Nat → Iter → Except Err Iter
  | fuel, it =>
    let nodeOfs := iterNodeOfs it
    let idx := iterNodeI it
    if readU32 buf (nodeOfs + 64 + 4 * idx) ≠ 0 then
      let nxt := readU32 buf (nodeOfs + 64 + 4 * idx)
      if nxt % 4 ≠ 0 then .error .ebadmsg
      else
        match fuel with
        | 0 => .error .ebadmsg
        | f + 1 =>
            if nxt > sub64 buflen LITE3_NODE_SIZE then .error .efault
            else
              let it := { it with
                depth := it.depth + 1
                node_ofs := it.node_ofs.set (it.depth + 1) nxt
                node_i := it.node_i.set (it.depth + 1) 0 }
              iter_next_descend buf buflen f it
    else .ok it

/-- The pop loop of `lite3_iter_next` (`key_count` reached: go up). The loop
runs at most `depth` times as each pass decrements the depth; the first
argument is that bound. -/
def iter_next_pop (buf : Buf) : Nat → Iter → Except Err Iter
  | 0, it => .ok it
  | f + 1, it =>
      if it.depth > 0 ∧
          iterNodeI it = (readU32 buf (iterNodeOfs it + 32) &&& LITE3_NODE_KEY_COUNT_MASK) then
        let it2 := { it with depth := it.depth - 1 }
        if iterNodeOfs it2 % 4 ≠ 0 then .error .ebadmsg
        else iter_next_pop buf f it2
      else .ok it

/-- `lite3_iter_next`: checks the captured generation against the root node
at buffer offset 0, emits the current slot and advances. `wantKey` /
`wantVal` model non-NULL `out_key` / `out_val_ofs` pointers. -/
def lite3_iter_next (buf : Buf) (buflen : Nat) (it : Iter)
    (wantKey wantVal : Bool) : IterNextRes :=
  if it.gen ≠ readU32 buf 0 then .fail .einval
  else
    let nodeOfs := iterNodeOfs it
    if nodeOfs % 4 ≠ 0 then .fail .ebadmsg
    else
      let t := readU32 buf nodeOfs &&& 255
      if ¬ (t = LITE3_TYPE_OBJECT ∨ t = LITE3_TYPE_ARRAY) then .fail .einval
      else if it.depth = 0 ∧
          iterNodeI it = (readU32 buf (nodeOfs + 32) &&& LITE3_NODE_KEY_COUNT_MASK) then
        .done
      else
        let target0 := readU32 buf (nodeOfs + 36 + 4 * iterNodeI it)
        let keyStep : (Option Str3 × Nat) ⊕ Err :=
          if t = LITE3_TYPE_OBJECT ∧ wantKey then
            match verify_key buf buflen none 0 0 target0 with
            | .fail e => .inr e
            | .coll => .inr .einval
            | .ok t2 ktagOut =>
                .inl (some ⟨it.gen, sub32 (readLE buf target0 ktagOut) 1,
                  target0 + ktagOut⟩, t2)
          else .inl (none, target0)
        match keyStep with
        | .inr e => .fail e
        | .inl (keyOut, target1) =>
            let valStep : Option Nat ⊕ Err :=
              if wantVal then
                match verify_val buf buflen target1 with
                | .error e => .inr e
                | .ok _ => .inl (some target1)
              else .inl none
            match valStep with
            | .inr e => .fail e
            | .inl valOut =>
                let it1 := { it with node_i := it.node_i.set it.depth (iterNodeI it + 1) }
                match iter_next_descend buf buflen
                    (LITE3_TREE_HEIGHT_MAX - it1.depth) it1 with
                | .error e => .fail e
                | .ok it2 =>
                    match iter_next_pop buf it2.depth it2 with
                    | .error e => .fail e
                    | .ok it3 => .item it3 keyOut valOut

/-- The error of a fallible result, if any (used to state results whose
success payload contains a buffer). -/
def errOf {α : Type} : Except Err α → Option Err
  | .error e => some e
  | .ok _ => none

/-- Whether an iterator step produced an item. -/
def IterNextRes.isItem : IterNextRes → Bool
  | .item _ _ _ => true
  | _ => false

/-- Whether an iterator step failed. -/
def IterNextRes.isFailure : IterNextRes → Bool
  | .fail _ => true
  | _ => false

/-- An all-zero buffer (fresh memory). -/
def zeroBuf : Buf := fun _ => 0

/-- A crafted object container used as a concrete lookup example: one entry
whose node hash field holds `hash("a") + 1` (the attempt-1 probe position of
key `"a"`) while the key record stores exactly `"a"`; laid out as the engine
itself lays out a one-entry object (`kv_ofs[0] = 97`, one alignment pad byte
at 96, key tag 8, key bytes, null value). -/
def probeBuf : Buf :=
  let b := _lite3_init_impl zeroBuf 0 LITE3_TYPE_OBJECT
  let b := writeU32 b 4 177671
  let b := writeU32 b 32 ((1 <<< 6) + 1)
  let b := writeU32 b 36 97
  let b := setB b 97 8
  let b := setB b 98 97
  let b := setB b 99 0
  setB b 100 0

/-- A crafted full root object (7 keys, hashes 10..70, all-zero kv slots):
the next insert must split it. -/
def fullRootBuf : Buf :=
  let b := _lite3_init_impl zeroBuf 0 LITE3_TYPE_OBJECT
  let b := writeU32 b 4 10
  let b := writeU32 b 8 20
  let b := writeU32 b 12 30
  let b := writeU32 b 16 40
  let b := writeU32 b 20 50
  let b := writeU32 b 24 60
  let b := writeU32 b 28 70
  writeU32 b 32 ((7 <<< 6) + 7)

/-- Inserting key `"x"` into the full root: triggers a root split. -/
def splitRes : Buf × Nat × Except Err Unit :=
  lite3_set_null fullRootBuf LITE3_NODE_SIZE 0 512 [120]

/-- A root object holding one key `"a"` whose value is a nested empty object
at offset 100 (the exact layout `lite3_set_obj` produces). -/
def nestedBuf : Buf :=
  let b := _lite3_init_impl zeroBuf 0 LITE3_TYPE_OBJECT
  let b := writeU32 b 4 177670
  let b := writeU32 b 32 ((1 <<< 6) + 1)
  let b := writeU32 b 36 97
  let b := setB b 97 8
  let b := setB b 98 97
  let b := setB b 99 0
  _lite3_init_impl b 100 LITE3_TYPE_OBJECT

/-- An iterator over the root object of `nestedBuf`. -/
def nestedIter : Except Err Iter := lite3_iter_create nestedBuf 196 0

/-- A mutation of the *nested* container (offset 100) of `nestedBuf`,
performed after `nestedIter` was created. -/
def nestedSet : Buf × Nat × Except Err Unit :=
  lite3_set_i64 nestedBuf 196 100 1024 [98] 7

/-- The iterator step taken after the nested mutation. -/
def nestedNext : IterNextRes :=
  match nestedIter with
  | .ok it => lite3_iter_next nestedSet.1 nestedSet.2.1 it true true
  | .error e => .fail e

/-- A root array buffer (for a set call rejected by argument verification). -/
def arrBuf : Buf := _lite3_init_impl zeroBuf 0 LITE3_TYPE_ARRAY


/-- An object-`set` aimed at an array root: rejected by
`_lite3_verify_obj_set` before the engine runs. -/
def rejectedSet : Buf × Nat × Except Err Unit :=
  lite3_set_i64 arrBuf LITE3_NODE_SIZE 0 LITE3_NODE_SIZE [97] 5

/-! The compile-time hash path of `LITE3_KEY_DATA` (preprocessor arithmetic
from `lite3.h`). All intermediate values are `unsigned long long`; every
quantity below is bounded well under 2^64 (the largest product is a byte
times a value below 2^32), so plain `Nat` arithmetic coincides with the
C evaluation. -/

/-- `LITE3_MOD`. -/
def LITE3_MOD : Nat := 4294967296

/-- `LITE3_P0`. -/
def LITE3_P0 : Nat := 33

/-- `LITE3_P1 = (P0 * P0) % MOD`. -/
def LITE3_P1 : Nat := LITE3_P0 * LITE3_P0 % LITE3_MOD

/-- `LITE3_P2`. -/
def LITE3_P2 : Nat := LITE3_P1 * LITE3_P1 % LITE3_MOD

/-- `LITE3_P3`. -/
def LITE3_P3 : Nat := LITE3_P2 * LITE3_P2 % LITE3_MOD

/-- `LITE3_P4`. -/
def LITE3_P4 : Nat := LITE3_P3 * LITE3_P3 % LITE3_MOD

/-- `LITE3_P5`. -/
def LITE3_P5 : Nat := LITE3_P4 * LITE3_P4 % LITE3_MOD

/-- `LITE3_POW33(k)`: binary-decomposition power `33^k mod 2^32`, reducing
after each conditional factor exactly as the macro does
(`LITE3_BITj(k) = (k >> j) & 1`). -/
def LITE3_POW33 (k : Nat) : Nat :=
  let x := 1 * (if (k >>> 0) % 2 = 1 then LITE3_P0 else 1) % LITE3_MOD
  let x := x * (if (k >>> 1) % 2 = 1 then LITE3_P1 else 1) % LITE3_MOD
  let x := x * (if (k >>> 2) % 2 = 1 then LITE3_P2 else 1) % LITE3_MOD
  let x := x * (if (k >>> 3) % 2 = 1 then LITE3_P3 else 1) % LITE3_MOD
  let x := x * (if (k >>> 4) % 2 = 1 then LITE3_P4 else 1) % LITE3_MOD
  x * (if (k >>> 5) % 2 = 1 then LITE3_P5 else 1) % LITE3_MOD

/-- `LITE3_SUM_1(s, i, p) = (u64)(u8)s[i] * POW33(p)`. -/
def LITE3_SUM_1 (s : List Nat) (i p : Nat) : Nat :=
  s.getD i 0 % 256 * LITE3_POW33 p

/-- `LITE3_SUM_2`. At every macro call site `p` is at least the in-chunk
index, so the `u64` subtractions below never wrap. -/
def LITE3_SUM_2 (s : List Nat) (i p : Nat) : Nat :=
  LITE3_SUM_1 s i p + LITE3_SUM_1 s (i + 1) (p - 1)

/-- `LITE3_SUM_4`. -/
def LITE3_SUM_4 (s : List Nat) (i p : Nat) : Nat :=
  LITE3_SUM_2 s i p + LITE3_SUM_2 s (i + 2) (p - 2)

/-- `LITE3_SUM_8`. -/
def LITE3_SUM_8 (s : List Nat) (i p : Nat) : Nat :=
  LITE3_SUM_4 s i p + LITE3_SUM_4 s (i + 4) (p - 4)

/-- `LITE3_SUM_16`. -/
def LITE3_SUM_16 (s : List Nat) (i p : Nat) : Nat :=
  LITE3_SUM_8 s i p + LITE3_SUM_8 s (i + 8) (p - 8)

/-- `LITE3_SUM_32`. -/
def LITE3_SUM_32 (s : List Nat) (i p : Nat) : Nat :=
  LITE3_SUM_16 s i p + LITE3_SUM_16 s (i + 16) (p - 16)

/-- `LITE3_OFFSET_BIT0(len)`. -/
def LITE3_OFFSET_BIT0 (len : Nat) : Nat :=
  (if len &&& 2 ≠ 0 then 2 else 0) + (if len &&& 4 ≠ 0 then 4 else 0) +
    (if len &&& 8 ≠ 0 then 8 else 0) + (if len &&& 16 ≠ 0 then 16 else 0) +
    (if len &&& 32 ≠ 0 then 32 else 0)

/-- `LITE3_OFFSET_BIT1(len)`. -/
def LITE3_OFFSET_BIT1 (len : Nat) : Nat :=
  (if len &&& 4 ≠ 0 then 4 else 0) + (if len &&& 8 ≠ 0 then 8 else 0) +
    (if len &&& 16 ≠ 0 then 16 else 0) + (if len &&& 32 ≠ 0 then 32 else 0)

/-- `LITE3_OFFSET_BIT2(len)`. -/
def LITE3_OFFSET_BIT2 (len : Nat) : Nat :=
  (if len &&& 8 ≠ 0 then 8 else 0) + (if len &&& 16 ≠ 0 then 16 else 0) +
    (if len &&& 32 ≠ 0 then 32 else 0)

/-- `LITE3_OFFSET_BIT3(len)`. -/
def LITE3_OFFSET_BIT3 (len : Nat) : Nat :=
  (if len &&& 16 ≠ 0 then 16 else 0) + (if len &&& 32 ≠ 0 then 32 else 0)

/-- `LITE3_OFFSET_BIT4(len)`. -/
def LITE3_OFFSET_BIT4 (len : Nat) : Nat :=
  if len &&& 32 ≠ 0 then 32 else 0

/-- `LITE3_OFFSET_BIT5(len)` (defined as `0ULL`). -/
def LITE3_OFFSET_BIT5 (_ : Nat) : Nat := 0

/-- `LITE3_POLY_HASH(s, len)`: the sum of the power-of-two chunk sums
selected by the bits of `len`. -/
def LITE3_POLY_HASH (s : List Nat) (len : Nat) : Nat :=
  (if len &&& 1 ≠ 0 then
      LITE3_SUM_1 s (LITE3_OFFSET_BIT0 len) (len - 1 - LITE3_OFFSET_BIT0 len)
    else 0) +
    (if len &&& 2 ≠ 0 then
        LITE3_SUM_2 s (LITE3_OFFSET_BIT1 len) (len - 1 - LITE3_OFFSET_BIT1 len)
      else 0) +
    (if len &&& 4 ≠ 0 then
        LITE3_SUM_4 s (LITE3_OFFSET_BIT2 len) (len - 1 - LITE3_OFFSET_BIT2 len)
      else 0) +
    (if len &&& 8 ≠ 0 then
        LITE3_SUM_8 s (LITE3_OFFSET_BIT3 len) (len - 1 - LITE3_OFFSET_BIT3 len)
      else 0) +
    (if len &&& 16 ≠ 0 then
        LITE3_SUM_16 s (LITE3_OFFSET_BIT4 len) (len - 1 - LITE3_OFFSET_BIT4 len)
      else 0) +
    (if len &&& 32 ≠ 0 then
        LITE3_SUM_32 s (LITE3_OFFSET_BIT5 len) (len - 1 - LITE3_OFFSET_BIT5 len)
      else 0)

/-- The compile-time branch of `LITE3_KEY_DATA(s)` for a string literal of
length below 64: `hash = (POLY_HASH(s, strlen) + 5381 * POW33(strlen)) % MOD`
and `size = sizeof(s) = strlen + 1`. -/
def LITE3_KEY_DATA_ct (s : List Nat) : KeyData :=
  { hash := (LITE3_POLY_HASH s s.length +
      LITE3_DJB2_HASH_SEED * LITE3_POW33 s.length) % LITE3_MOD
    size := s.length + 1 }

/-- The DJB2 reference definition, written from the spec's words for the
refinement comparison: a rolling value seeded at 5381, each byte folded by
`h = h * 33 + byte` modulo 2^32. -/
def djb2_spec (key : List Nat) : Nat :=
  key.foldl (fun h b => (h * 33 + b) % 2 ^ 32) 5381

/-- The indexed exact sum `Σ_{t<n} s[i+t] * 33^(len-1-(i+t))` (no modular
reduction); the mathematical value both hash paths compute modulo 2^32. -/
def djb2Sum (s : List Nat) (len i : Nat) : Nat → Nat
  | 0 => 0
  | n + 1 => s.getD i 0 * 33 ^ (len - 1 - i) + djb2Sum s len (i + 1) n

end Lite3

namespace Lite3

/-- Every byte the hashers read is below 256: in-range reads are list
elements (bounded by hypothesis), out-of-range reads are 0. -/
theorem getD_lt_256 (s : List Nat) (hb : ∀ b ∈ s, b < 256) (i : Nat) :
    s.getD i 0 < 256 := by
  rcases Nat.lt_or_ge i s.length with h | h
  · rw [List.getD_eq_getElem s 0 h]
    exact hb _ (List.getElem_mem h)
  · rw [List.getD_eq_default s 0 (by omega)]
    omega

/-- `LITE3_POW33` computes `33^k mod 2^32` for every exponent the macro is
used with (key lengths below 64). -/
theorem pow33_eq : ∀ k < 64, LITE3_POW33 k = 33 ^ k % LITE3_MOD := by decide

/-- Splitting an indexed exact sum at `m`. -/
theorem djb2Sum_append (s : List Nat) (len : Nat) :
    ∀ m i n, djb2Sum s len i (m + n) = djb2Sum s len i m + djb2Sum s len (i + m) n := by
  intro m
  induction m with
  | zero => intro i n; simp [djb2Sum]
  | succ m ih =>
      intro i n
      have : m + 1 + n = (m + n) + 1 := by omega
      rw [this]
      simp only [djb2Sum, ih (i + 1) n]
      have : i + 1 + m = i + (m + 1) := by omega
      rw [this, Nat.add_assoc]

/-- Peeling the head element off an indexed exact sum. -/
theorem djb2Sum_cons (b : Nat) (t : List Nat) (len : Nat) :
    ∀ n i, djb2Sum (b :: t) (len + 1) (i + 1) n = djb2Sum t len i n := by
  intro n
  induction n with
  | zero => intro i; simp [djb2Sum]
  | succ n ih =>
      intro i
      simp only [djb2Sum, List.getD_cons_succ, ih (i + 1)]
      have : len + 1 - 1 - (i + 1) = len - 1 - i := by omega
      rw [this]

/-- The runtime DJB2 fold in closed form: folding from seed `h`
produces `(h·33^len + Σ s[i]·33^(len-1-i)) mod 2^32`. -/
theorem djb2_fold (s : List Nat) :
    ∀ h : Nat, h < 2 ^ 32 →
      s.foldl (fun h b => (h * 33 + b) % 2 ^ 32) h =
        (h * 33 ^ s.length + djb2Sum s s.length 0 s.length) % 2 ^ 32 := by
  induction s with
  | nil =>
      intro h hh
      simp only [List.foldl_nil, List.length_nil, pow_zero, Nat.mul_one, djb2Sum,
        Nat.add_zero]
      omega
  | cons b t ih =>
      intro h hh
      have step : ((h * 33 + b) % 2 ^ 32) < 2 ^ 32 := Nat.mod_lt _ (by norm_num)
      simp only [List.foldl_cons]
      rw [ih _ step]
      have hsum : djb2Sum (b :: t) (t.length + 1) 0 (t.length + 1) =
          b * 33 ^ t.length + djb2Sum t t.length 0 t.length := by
        simp only [djb2Sum, List.getD_cons_zero]
        rw [show (0 : Nat) + 1 = 1 from rfl]
        rw [djb2Sum_cons b t t.length t.length 0]
        have : t.length + 1 - 1 - 0 = t.length := by omega
        rw [this]
      rw [List.length_cons, hsum]
      have h2 : (h * 33 + b) % 2 ^ 32 * 33 ^ t.length + djb2Sum t t.length 0 t.length ≡
          (h * 33 + b) * 33 ^ t.length + djb2Sum t t.length 0 t.length [MOD 2 ^ 32] :=
        ((Nat.mod_modEq _ _).mul_right _).add_right _
      rw [Nat.ModEq] at h2
      rw [h2]
      congr 1
      ring

/-- Chunk lemma for `LITE3_SUM_1`: one term of the polynomial, modulo 2^32. -/
theorem sum1_modeq (s : List Nat) (hb : ∀ b ∈ s, b < 256) (len i : Nat)
    (hlen : len < 64) (hi : i + 1 ≤ len) :
    LITE3_SUM_1 s i (len - 1 - i) ≡ djb2Sum s len i 1 [MOD LITE3_MOD] := by
  have hp : len - 1 - i < 64 := by omega
  have hb' := getD_lt_256 s hb i
  simp only [LITE3_SUM_1, djb2Sum, pow33_eq _ hp, Nat.mod_eq_of_lt hb', Nat.add_zero]
  exact (Nat.mod_modEq _ _).mul_left _

/-- Chunk lemma for `LITE3_SUM_2`. -/
theorem sum2_modeq (s : List Nat) (hb : ∀ b ∈ s, b < 256) (len i : Nat)
    (hlen : len < 64) (hi : i + 2 ≤ len) :
    LITE3_SUM_2 s i (len - 1 - i) ≡ djb2Sum s len i 2 [MOD LITE3_MOD] := by
  have h1 := sum1_modeq s hb len i hlen (by omega)
  have h2 := sum1_modeq s hb len (i + 1) hlen (by omega)
  have hx : len - 1 - i - 1 = len - 1 - (i + 1) := by omega
  have happ : djb2Sum s len i 2 = djb2Sum s len i 1 + djb2Sum s len (i + 1) 1 := by
    have := djb2Sum_append s len 1 i 1
    simpa using this
  rw [LITE3_SUM_2, hx, happ]
  exact h1.add h2

/-- Chunk lemma for `LITE3_SUM_4`. -/
theorem sum4_modeq (s : List Nat) (hb : ∀ b ∈ s, b < 256) (len i : Nat)
    (hlen : len < 64) (hi : i + 4 ≤ len) :
    LITE3_SUM_4 s i (len - 1 - i) ≡ djb2Sum s len i 4 [MOD LITE3_MOD] := by
  have h1 := sum2_modeq s hb len i hlen (by omega)
  have h2 := sum2_modeq s hb len (i + 2) hlen (by omega)
  have hx : len - 1 - i - 2 = len - 1 - (i + 2) := by omega
  have happ : djb2Sum s len i 4 = djb2Sum s len i 2 + djb2Sum s len (i + 2) 2 := by
    have := djb2Sum_append s len 2 i 2
    simpa using this
  rw [LITE3_SUM_4, hx, happ]
  exact h1.add h2

/-- Chunk lemma for `LITE3_SUM_8`. -/
theorem sum8_modeq (s : List Nat) (hb : ∀ b ∈ s, b < 256) (len i : Nat)
    (hlen : len < 64) (hi : i + 8 ≤ len) :
    LITE3_SUM_8 s i (len - 1 - i) ≡ djb2Sum s len i 8 [MOD LITE3_MOD] := by
  have h1 := sum4_modeq s hb len i hlen (by omega)
  have h2 := sum4_modeq s hb len (i + 4) hlen (by omega)
  have hx : len - 1 - i - 4 = len - 1 - (i + 4) := by omega
  have happ : djb2Sum s len i 8 = djb2Sum s len i 4 + djb2Sum s len (i + 4) 4 := by
    have := djb2Sum_append s len 4 i 4
    simpa using this
  rw [LITE3_SUM_8, hx, happ]
  exact h1.add h2

/-- Chunk lemma for `LITE3_SUM_16`. -/
theorem sum16_modeq (s : List Nat) (hb : ∀ b ∈ s, b < 256) (len i : Nat)
    (hlen : len < 64) (hi : i + 16 ≤ len) :
    LITE3_SUM_16 s i (len - 1 - i) ≡ djb2Sum s len i 16 [MOD LITE3_MOD] := by
  have h1 := sum8_modeq s hb len i hlen (by omega)
  have h2 := sum8_modeq s hb len (i + 8) hlen (by omega)
  have hx : len - 1 - i - 8 = len - 1 - (i + 8) := by omega
  have happ : djb2Sum s len i 16 = djb2Sum s len i 8 + djb2Sum s len (i + 8) 8 := by
    have := djb2Sum_append s len 8 i 8
    simpa using this
  rw [LITE3_SUM_16, hx, happ]
  exact h1.add h2

/-- Chunk lemma for `LITE3_SUM_32`. -/
theorem sum32_modeq (s : List Nat) (hb : ∀ b ∈ s, b < 256) (len i : Nat)
    (hlen : len < 64) (hi : i + 32 ≤ len) :
    LITE3_SUM_32 s i (len - 1 - i) ≡ djb2Sum s len i 32 [MOD LITE3_MOD] := by
  have h1 := sum16_modeq s hb len i hlen (by omega)
  have h2 := sum16_modeq s hb len (i + 16) hlen (by omega)
  have hx : len - 1 - i - 16 = len - 1 - (i + 16) := by omega
  have happ : djb2Sum s len i 32 = djb2Sum s len i 16 + djb2Sum s len (i + 16) 16 := by
    have := djb2Sum_append s len 16 i 16
    simpa using this
  rw [LITE3_SUM_32, hx, happ]
  exact h1.add h2

/-- The offset macros position each selected chunk exactly at the start of
its suffix interval, and the suffix starts chain down by the chunk sizes
(verified for every length below 64). -/
theorem poly_offsets : ∀ L < 64,
    LITE3_OFFSET_BIT0 L = (L >>> 1) <<< 1 ∧
    LITE3_OFFSET_BIT1 L = (L >>> 2) <<< 2 ∧
    LITE3_OFFSET_BIT2 L = (L >>> 3) <<< 3 ∧
    LITE3_OFFSET_BIT3 L = (L >>> 4) <<< 4 ∧
    LITE3_OFFSET_BIT4 L = (L >>> 5) <<< 5 ∧
    (L >>> 5) <<< 5 = (if L &&& 32 ≠ 0 then 32 else 0) ∧
    (L >>> 4) <<< 4 = (L >>> 5) <<< 5 + (if L &&& 16 ≠ 0 then 16 else 0) ∧
    (L >>> 3) <<< 3 = (L >>> 4) <<< 4 + (if L &&& 8 ≠ 0 then 8 else 0) ∧
    (L >>> 2) <<< 2 = (L >>> 3) <<< 3 + (if L &&& 4 ≠ 0 then 4 else 0) ∧
    (L >>> 1) <<< 1 = (L >>> 2) <<< 2 + (if L &&& 2 ≠ 0 then 2 else 0) ∧
    L = (L >>> 1) <<< 1 + (if L &&& 1 ≠ 0 then 1 else 0) ∧
    (L >>> 1) <<< 1 ≤ L ∧ (L >>> 2) <<< 2 ≤ L ∧ (L >>> 3) <<< 3 ≤ L ∧
    (L >>> 4) <<< 4 ≤ L ∧ (L >>> 5) <<< 5 ≤ L := by decide

/-- The compile-time polynomial hash equals the exact DJB2 sum modulo 2^32:
the chunks selected by the bits of `len` tile the whole index range. -/
theorem poly_hash_modeq (s : List Nat) (hb : ∀ b ∈ s, b < 256) (len : Nat)
    (hlen : len < 64) :
    LITE3_POLY_HASH s len ≡ djb2Sum s len 0 len [MOD LITE3_MOD] := by
  obtain ⟨o0, o1, o2, o3, o4, e5, e4, e3, e2, e1, e0, l1, l2, l3, l4, l5⟩ :=
    poly_offsets len hlen
  have t0 : (if len &&& 1 ≠ 0 then
        LITE3_SUM_1 s (LITE3_OFFSET_BIT0 len) (len - 1 - LITE3_OFFSET_BIT0 len)
      else 0) ≡
      djb2Sum s len ((len >>> 1) <<< 1) (if len &&& 1 ≠ 0 then 1 else 0)
        [MOD LITE3_MOD] := by
    rw [o0]
    by_cases h : len &&& 1 ≠ 0
    · rw [if_pos h, if_pos h]
      rw [if_pos h] at e0
      exact sum1_modeq s hb len _ hlen (by omega)
    · rw [if_neg h, if_neg h]
      exact Nat.ModEq.refl 0
  have t1 : (if len &&& 2 ≠ 0 then
        LITE3_SUM_2 s (LITE3_OFFSET_BIT1 len) (len - 1 - LITE3_OFFSET_BIT1 len)
      else 0) ≡
      djb2Sum s len ((len >>> 2) <<< 2) (if len &&& 2 ≠ 0 then 2 else 0)
        [MOD LITE3_MOD] := by
    rw [o1]
    by_cases h : len &&& 2 ≠ 0
    · rw [if_pos h, if_pos h]
      rw [if_pos h] at e1
      exact sum2_modeq s hb len _ hlen (by omega)
    · rw [if_neg h, if_neg h]
      exact Nat.ModEq.refl 0
  have t2 : (if len &&& 4 ≠ 0 then
        LITE3_SUM_4 s (LITE3_OFFSET_BIT2 len) (len - 1 - LITE3_OFFSET_BIT2 len)
      else 0) ≡
      djb2Sum s len ((len >>> 3) <<< 3) (if len &&& 4 ≠ 0 then 4 else 0)
        [MOD LITE3_MOD] := by
    rw [o2]
    by_cases h : len &&& 4 ≠ 0
    · rw [if_pos h, if_pos h]
      rw [if_pos h] at e2
      exact sum4_modeq s hb len _ hlen (by omega)
    · rw [if_neg h, if_neg h]
      exact Nat.ModEq.refl 0
  have t3 : (if len &&& 8 ≠ 0 then
        LITE3_SUM_8 s (LITE3_OFFSET_BIT3 len) (len - 1 - LITE3_OFFSET_BIT3 len)
      else 0) ≡
      djb2Sum s len ((len >>> 4) <<< 4) (if len &&& 8 ≠ 0 then 8 else 0)
        [MOD LITE3_MOD] := by
    rw [o3]
    by_cases h : len &&& 8 ≠ 0
    · rw [if_pos h, if_pos h]
      rw [if_pos h] at e3
      exact sum8_modeq s hb len _ hlen (by omega)
    · rw [if_neg h, if_neg h]
      exact Nat.ModEq.refl 0
  have t4 : (if len &&& 16 ≠ 0 then
        LITE3_SUM_16 s (LITE3_OFFSET_BIT4 len) (len - 1 - LITE3_OFFSET_BIT4 len)
      else 0) ≡
      djb2Sum s len ((len >>> 5) <<< 5) (if len &&& 16 ≠ 0 then 16 else 0)
        [MOD LITE3_MOD] := by
    rw [o4]
    by_cases h : len &&& 16 ≠ 0
    · rw [if_pos h, if_pos h]
      rw [if_pos h] at e4
      exact sum16_modeq s hb len _ hlen (by omega)
    · rw [if_neg h, if_neg h]
      exact Nat.ModEq.refl 0
  have t5 : (if len &&& 32 ≠ 0 then
        LITE3_SUM_32 s (LITE3_OFFSET_BIT5 len) (len - 1 - LITE3_OFFSET_BIT5 len)
      else 0) ≡
      djb2Sum s len 0 (if len &&& 32 ≠ 0 then 32 else 0) [MOD LITE3_MOD] := by
    by_cases h : len &&& 32 ≠ 0
    · rw [if_pos h, if_pos h]
      rw [if_pos h] at e5
      have : LITE3_OFFSET_BIT5 len = 0 := rfl
      rw [this]
      exact sum32_modeq s hb len 0 hlen (by omega)
    · rw [if_neg h, if_neg h]
      exact Nat.ModEq.refl 0
  have T := ((((t0.add t1).add t2).add t3).add t4).add t5
  have s0 : djb2Sum s len 0 len =
      djb2Sum s len 0 ((len >>> 1) <<< 1) +
        djb2Sum s len ((len >>> 1) <<< 1) (if len &&& 1 ≠ 0 then 1 else 0) := by
    have h := djb2Sum_append s len ((len >>> 1) <<< 1) 0
      (if len &&& 1 ≠ 0 then 1 else 0)
    simp only [Nat.zero_add] at h
    rw [← e0] at h
    exact h
  have s1 : djb2Sum s len 0 ((len >>> 1) <<< 1) =
      djb2Sum s len 0 ((len >>> 2) <<< 2) +
        djb2Sum s len ((len >>> 2) <<< 2) (if len &&& 2 ≠ 0 then 2 else 0) := by
    have h := djb2Sum_append s len ((len >>> 2) <<< 2) 0
      (if len &&& 2 ≠ 0 then 2 else 0)
    simp only [Nat.zero_add] at h
    rw [← e1] at h
    exact h
  have s2 : djb2Sum s len 0 ((len >>> 2) <<< 2) =
      djb2Sum s len 0 ((len >>> 3) <<< 3) +
        djb2Sum s len ((len >>> 3) <<< 3) (if len &&& 4 ≠ 0 then 4 else 0) := by
    have h := djb2Sum_append s len ((len >>> 3) <<< 3) 0
      (if len &&& 4 ≠ 0 then 4 else 0)
    simp only [Nat.zero_add] at h
    rw [← e2] at h
    exact h
  have s3 : djb2Sum s len 0 ((len >>> 3) <<< 3) =
      djb2Sum s len 0 ((len >>> 4) <<< 4) +
        djb2Sum s len ((len >>> 4) <<< 4) (if len &&& 8 ≠ 0 then 8 else 0) := by
    have h := djb2Sum_append s len ((len >>> 4) <<< 4) 0
      (if len &&& 8 ≠ 0 then 8 else 0)
    simp only [Nat.zero_add] at h
    rw [← e3] at h
    exact h
  have s4 : djb2Sum s len 0 ((len >>> 4) <<< 4) =
      djb2Sum s len 0 ((len >>> 5) <<< 5) +
        djb2Sum s len ((len >>> 5) <<< 5) (if len &&& 16 ≠ 0 then 16 else 0) := by
    have h := djb2Sum_append s len ((len >>> 5) <<< 5) 0
      (if len &&& 16 ≠ 0 then 16 else 0)
    simp only [Nat.zero_add] at h
    rw [← e4] at h
    exact h
  have s5 : djb2Sum s len 0 ((len >>> 5) <<< 5) =
      djb2Sum s len 0 (if len &&& 32 ≠ 0 then 32 else 0) := by
    rw [e5]
  have total :
      djb2Sum s len ((len >>> 1) <<< 1) (if len &&& 1 ≠ 0 then 1 else 0) +
        djb2Sum s len ((len >>> 2) <<< 2) (if len &&& 2 ≠ 0 then 2 else 0) +
        djb2Sum s len ((len >>> 3) <<< 3) (if len &&& 4 ≠ 0 then 4 else 0) +
        djb2Sum s len ((len >>> 4) <<< 4) (if len &&& 8 ≠ 0 then 8 else 0) +
        djb2Sum s len ((len >>> 5) <<< 5) (if len &&& 16 ≠ 0 then 16 else 0) +
        djb2Sum s len 0 (if len &&& 32 ≠ 0 then 32 else 0) =
      djb2Sum s len 0 len := by omega
  rw [LITE3_POLY_HASH]
  exact total ▸ T

/-- C9: for every NUL-terminated key string of fewer than 64 characters
(bytes nonzero and below 256), the compile-time polynomial path of
`LITE3_KEY_DATA` produces the same key data (32-bit hash and size field) as
the runtime `lite3_get_key_data`, and both hashes equal the DJB2 reference:
seed 5381, each byte folded by `h = h*33 + byte` modulo 2^32. -/
theorem C9_hash_equivalence (key : List Nat)
    (hb : ∀ b ∈ key, 0 < b ∧ b < 256) (hlen : key.length < 64) :
    LITE3_KEY_DATA_ct key = lite3_get_key_data key ∧
      (LITE3_KEY_DATA_ct key).hash = djb2_spec key ∧
      (lite3_get_key_data key).size = key.length + 1 := by
  have hb' : ∀ b ∈ key, b < 256 := fun b h => (hb b h).2
  have hpoly := poly_hash_modeq key hb' key.length hlen
  have hrt : (lite3_get_key_data key).hash =
      (5381 * 33 ^ key.length + djb2Sum key key.length 0 key.length) % 2 ^ 32 := by
    have := djb2_fold key 5381 (by norm_num)
    simpa [lite3_get_key_data, LITE3_DJB2_HASH_SEED] using this
  have hct : (LITE3_KEY_DATA_ct key).hash =
      (5381 * 33 ^ key.length + djb2Sum key key.length 0 key.length) % 2 ^ 32 := by
    have h2 : LITE3_DJB2_HASH_SEED * (33 ^ key.length % LITE3_MOD) ≡
        5381 * 33 ^ key.length [MOD LITE3_MOD] := (Nat.mod_modEq _ _).mul_left _
    have step := hpoly.add h2
    rw [Nat.ModEq] at step
    show (LITE3_POLY_HASH key key.length +
        LITE3_DJB2_HASH_SEED * LITE3_POW33 key.length) % LITE3_MOD = _
    rw [pow33_eq key.length hlen, step]
    have hM : LITE3_MOD = 2 ^ 32 := by norm_num [LITE3_MOD]
    rw [hM]
    congr 1
    ring
  have hh : (LITE3_KEY_DATA_ct key).hash = (lite3_get_key_data key).hash := by
    rw [hct, hrt]
  refine ⟨?_, ?_, rfl⟩
  · have hsz : (LITE3_KEY_DATA_ct key).size = (lite3_get_key_data key).size := rfl
    cases hKC : LITE3_KEY_DATA_ct key
    cases hRT : lite3_get_key_data key
    simp_all
  · rw [hct]
    have hds : djb2_spec key = (lite3_get_key_data key).hash := rfl
    rw [hds, hrt]

/-- C9 witness: the equivalence applied to the concrete key `"key"`
(bytes 107, 101, 121). -/
theorem C9_witness :
    (∀ b ∈ [107, 101, 121], 0 < b ∧ b < 256) ∧ ([107, 101, 121] : List Nat).length < 64 ∧
      (LITE3_KEY_DATA_ct [107, 101, 121] = lite3_get_key_data [107, 101, 121] ∧
        (LITE3_KEY_DATA_ct [107, 101, 121]).hash = djb2_spec [107, 101, 121] ∧
        (lite3_get_key_data [107, 101, 121]).size = ([107, 101, 121] : List Nat).length + 1) :=
  ⟨by decide, by decide, C9_hash_equivalence [107, 101, 121] (by decide) (by decide)⟩

/-- Reading one byte through a single store. -/
theorem byteAt_setB (b : Buf) (i v j : Nat) :
    byteAt (setB b i v) j = if j = i then v % 256 else byteAt b j := by
  unfold byteAt setB
  split <;> rfl

/-- A store outside `[p, p+n)` is invisible to `writeLE`-unchanged bytes. -/
theorem byteAt_writeLE_out (q : Nat) : ∀ (n : Nat) (b : Buf) (p v : Nat),
    q < p ∨ p + n ≤ q → byteAt (writeLE b p n v) q = byteAt b q := by
  intro n
  induction n with
  | zero => intro b p v _; rfl
  | succ n ih =>
      intro b p v h
      show byteAt (writeLE (setB b p (v % 256)) (p + 1) n (v / 256)) q = _
      rw [ih _ (p + 1) _ (by omega), byteAt_setB, if_neg (by omega)]

/-- Bytes outside `[p, p+n)` are unchanged by `memsetZ`. -/
theorem byteAt_memsetZ_out (q : Nat) : ∀ (n : Nat) (b : Buf) (p : Nat),
    q < p ∨ p + n ≤ q → byteAt (memsetZ b p n) q = byteAt b q := by
  intro n
  induction n with
  | zero => intro b p _; rfl
  | succ n ih =>
      intro b p h
      show byteAt (memsetZ (setB b p 0) (p + 1) n) q = _
      rw [ih _ (p + 1) (by omega), byteAt_setB, if_neg (by omega)]

/-- Bytes outside `[dst, dst+n)` are unchanged by `memcpyWithin`. -/
theorem byteAt_memcpyWithin_out (q : Nat) : ∀ (n : Nat) (b : Buf) (dst src : Nat),
    q < dst ∨ dst + n ≤ q → byteAt (memcpyWithin b dst src n) q = byteAt b q := by
  intro n
  induction n with
  | zero => intro b dst src _; rfl
  | succ n ih =>
      intro b dst src h
      show byteAt (memcpyWithin (setB b dst (byteAt b src)) (dst + 1) (src + 1) n) q = _
      rw [ih _ (dst + 1) (src + 1) (by omega), byteAt_setB, if_neg (by omega)]

/-- Bytes outside `[p, p + |bs|)` are unchanged by `writeBytes`. -/
theorem byteAt_writeBytes_out (q : Nat) : ∀ (bs : List Nat) (b : Buf) (p : Nat),
    q < p ∨ p + bs.length ≤ q → byteAt (writeBytes b p bs) q = byteAt b q := by
  intro bs
  induction bs with
  | nil => intro b p _; rfl
  | cons x xs ih =>
      intro b p h
      show byteAt (writeBytes (setB b p x) (p + 1) xs) q = _
      rw [ih _ (p + 1) (by simp at h ⊢; omega), byteAt_setB, if_neg (by simp at h; omega)]

/-- A 32-bit read only depends on its four bytes. -/
theorem readU32_congr (b' b : Buf) (q : Nat)
    (h : ∀ d, d < 4 → byteAt b' (q + d) = byteAt b (q + d)) :
    readU32 b' q = readU32 b q := by
  have h0 := h 0 (by omega)
  have h1 := h 1 (by omega)
  have h2 := h 2 (by omega)
  have h3 := h 3 (by omega)
  simp only [Nat.add_zero] at h0
  simp only [readU32, readLE]
  rw [h0, show q + 1 + 1 = q + 2 from rfl, show q + 2 + 1 = q + 3 from rfl, h1, h2, h3]

/-- Reading a `uint32` away from a single store. -/
theorem readU32_setB_out (b : Buf) (i v q : Nat) (h : i < q ∨ q + 4 ≤ i) :
    readU32 (setB b i v) q = readU32 b q := by
  refine readU32_congr _ _ _ fun d hd => ?_
  rw [byteAt_setB, if_neg (by omega)]

/-- Reading a `uint32` away from a `writeLE`. -/
theorem readU32_writeLE_out (b : Buf) (p n v q : Nat) (h : q + 4 ≤ p ∨ p + n ≤ q) :
    readU32 (writeLE b p n v) q = readU32 b q := by
  refine readU32_congr _ _ _ fun d hd => ?_
  exact byteAt_writeLE_out _ n b p v (by omega)

/-- Reading a `uint32` away from a `writeU32`. -/
theorem readU32_writeU32_out (b : Buf) (p v q : Nat) (h : q + 4 ≤ p ∨ p + 4 ≤ q) :
    readU32 (writeU32 b p v) q = readU32 b q :=
  readU32_writeLE_out b p 4 (v % 2 ^ 32) q h

/-- Reading a `uint32` away from a `memsetZ`. -/
theorem readU32_memsetZ_out (b : Buf) (p n q : Nat) (h : q + 4 ≤ p ∨ p + n ≤ q) :
    readU32 (memsetZ b p n) q = readU32 b q := by
  refine readU32_congr _ _ _ fun d hd => ?_
  exact byteAt_memsetZ_out _ n b p (by omega)

/-- Reading a `uint32` away from a `memcpyWithin` destination. -/
theorem readU32_memcpyWithin_out (b : Buf) (dst src n q : Nat)
    (h : q + 4 ≤ dst ∨ dst + n ≤ q) :
    readU32 (memcpyWithin b dst src n) q = readU32 b q := by
  refine readU32_congr _ _ _ fun d hd => ?_
  exact byteAt_memcpyWithin_out _ n b dst src (by omega)

/-- Reading a `uint32` away from a `writeBytes`. -/
theorem readU32_writeBytes_out (b : Buf) (p : Nat) (bs : List Nat) (q : Nat)
    (h : q + 4 ≤ p ∨ p + bs.length ≤ q) :
    readU32 (writeBytes b p bs) q = readU32 b q := by
  refine readU32_congr _ _ _ fun d hd => ?_
  exact byteAt_writeBytes_out _ bs b p (by omega)

/-- Reading back an `n`-byte little-endian write. -/
theorem readLE_writeLE : ∀ (n : Nat) (b : Buf) (p v : Nat),
    readLE (writeLE b p n v) p n = v % 256 ^ n := by
  intro n
  induction n with
  | zero => intro b p v; simp [readLE, Nat.pow_zero, Nat.mod_one]
  | succ n ih =>
      intro b p v
      show byteAt (writeLE (setB b p (v % 256)) (p + 1) n (v / 256)) p +
          256 * readLE (writeLE (setB b p (v % 256)) (p + 1) n (v / 256)) (p + 1) n =
          v % 256 ^ (n + 1)
      rw [byteAt_writeLE_out _ n _ (p + 1) _ (by omega), byteAt_setB, if_pos rfl,
        Nat.mod_mod_of_dvd v (dvd_refl 256), ih]
      rw [pow_succ', Nat.mod_mul]

/-- Reading back a 32-bit write. -/
theorem readU32_writeU32_eq (b : Buf) (p v : Nat) :
    readU32 (writeU32 b p v) p = v % 2 ^ 32 := by
  show readLE (writeLE b p 4 (v % 2 ^ 32)) p 4 = v % 2 ^ 32
  rw [readLE_writeLE]
  norm_num

set_option maxRecDepth 20000 in
set_option maxHeartbeats 4000000 in
/-- C2: evaluation of the code at the failing input. On `nestedBuf` an
iterator over the root container is created successfully; a subsequent
`lite3_set_i64` on the nested object container at offset 100 succeeds (a
mutating call on this buffer); yet the next `lite3_iter_next` yields an item
instead of failing with the iterator-invalidated error, because the set only
bumped the generation of the node at offset 100 while the iterator is
checked against the root node at offset 0. -/
theorem C2_nested_set_not_detected :
    (nestedIter).isOk = true ∧
      nestedSet.2.2 = .ok () ∧
      readU32 nestedSet.1 0 = readU32 nestedBuf 0 ∧
      nestedNext.isItem = true ∧
      nestedNext.isFailure = false := by decide

/-- Reading one byte away from a `writeU32`. -/
theorem byteAt_writeU32_out (b : Buf) (p v q : Nat) (h : q < p ∨ p + 4 ≤ q) :
    byteAt (writeU32 b p v) q = byteAt b q :=
  byteAt_writeLE_out q 4 b p (v % 2 ^ 32) h

/-- The parent-slot shift of the split never touches the first four bytes of
the buffer (every store lands at `pOfs + 4` or beyond). -/
theorem byteAt_shiftParentSlots_low (pOfs i q : Nat) (hq : q < 4) :
    ∀ (k : Nat) (b : Buf), byteAt (shiftParentSlots pOfs i b k) q = byteAt b q := by
  intro k
  induction k with
  | zero => intro b; rfl
  | succ k ih =>
      intro b
      simp only [shiftParentSlots]
      split
      · rw [ih, byteAt_writeU32_out _ (pOfs + 64 + 4 * (k + 2)) _ q (Or.inl (by omega)),
          byteAt_writeU32_out _ (pOfs + 36 + 4 * (k + 1)) _ q (Or.inl (by omega)),
          byteAt_writeU32_out _ (pOfs + 4 + 4 * (k + 1)) _ q (Or.inl (by omega))]
      · rfl

/-- The split's copy loop never touches the first four bytes of the buffer. -/
theorem byteAt_copyHalfSlots_low (sib nodeOfs q : Nat) (hq : q < 4) :
    ∀ (n j : Nat) (b : Buf), byteAt (copyHalfSlots b sib nodeOfs j n) q = byteAt b q := by
  intro n
  induction n with
  | zero => intro j b; rfl
  | succ n ih =>
      intro j b
      simp only [copyHalfSlots]
      rw [ih, byteAt_writeU32_out _ (nodeOfs + 64 + 4 * (j + 5)) _ q (Or.inl (by omega)),
        byteAt_writeU32_out _ (nodeOfs + 36 + 4 * (j + 4)) _ q (Or.inl (by omega)),
        byteAt_writeU32_out _ (nodeOfs + 4 + 4 * (j + 4)) _ q (Or.inl (by omega)),
        byteAt_writeU32_out _ (sib + 64 + 4 * (j + 1)) _ q (Or.inl (by omega)),
        byteAt_writeU32_out _ (sib + 36 + 4 * j) _ q (Or.inl (by omega)),
        byteAt_writeU32_out _ (sib + 4 + 4 * j) _ q (Or.inl (by omega))]

/-- The entry bump of `lite3_set_impl` turns generation `g` into
`(g + 1) mod 2^24`: arithmetic of `gen_type = (gen << 8) | type`. -/
theorem gen_bump_arith (gt : Nat) :
    ((gt % 256 + ((gt >>> 8 + 1) <<< 8) % 2 ^ 32) % 2 ^ 32) >>> 8 =
      (gt >>> 8 + 1) % 2 ^ 24 := by
  have e1 : ∀ x : Nat, x >>> 8 = x / 256 := fun x => by
    rw [Nat.shiftRight_eq_div_pow]
  have e2 : ∀ x : Nat, x <<< 8 = x * 256 := fun x => by
    rw [Nat.shiftLeft_eq]
  simp only [e1, e2]
  omega

/-- One-step unfolding of the set walk at exhausted tree-height fuel. -/
theorem set_walk_zero (ofs bufsz : Nat) (key : Option (List Nat))
    (keySize ktag h val_len base_entry : Nat) (buf : Buf) (buflen : Nat)
    (parent : Option (Nat × Nat × Nat)) (nodeOfs : Nat) :
    lite3_set_walk ofs bufsz key keySize ktag h val_len base_entry 0 buf buflen
        parent nodeOfs =
      match
        (if readU32 buf (nodeOfs + 32) &&& LITE3_NODE_KEY_COUNT_MASK =
              LITE3_NODE_KEY_COUNT_MAX then
            match set_split buf buflen ofs bufsz h parent nodeOfs with
            | .cont b l n => Sum.inl (b, l, n)
            | .skip b l p ip =>
                Sum.inr (set_key_match b l bufsz key keySize ktag val_len base_entry p ip)
            | .fail b l e => Sum.inr (SetWalkRes.fail b l e)
          else Sum.inl (buf, buflen, nodeOfs) :
          (Buf × Nat × Nat) ⊕ SetWalkRes) with
      | .inr r => r
      | .inl (b, l, n) =>
          if hashScan b n h 0 (readU32 b (n + 32) &&& LITE3_NODE_KEY_COUNT_MASK) <
                readU32 b (n + 32) &&& LITE3_NODE_KEY_COUNT_MASK ∧
              readU32 b (n + 4 + 4 * hashScan b n h 0
                  (readU32 b (n + 32) &&& LITE3_NODE_KEY_COUNT_MASK)) = h then
            set_key_match b l bufsz key keySize ktag val_len base_entry n
              (hashScan b n h 0 (readU32 b (n + 32) &&& LITE3_NODE_KEY_COUNT_MASK))
          else if readU32 b (n + 64) ≠ 0 then
            if readU32 b (n + 64 + 4 * hashScan b n h 0
                  (readU32 b (n + 32) &&& LITE3_NODE_KEY_COUNT_MASK)) % 4 ≠ 0 then
              SetWalkRes.fail b l Err.ebadmsg
            else if readU32 b (n + 64 + 4 * hashScan b n h 0
                  (readU32 b (n + 32) &&& LITE3_NODE_KEY_COUNT_MASK)) >
                sub64 l LITE3_NODE_SIZE then
              SetWalkRes.fail b l Err.efault
            else SetWalkRes.fail b l Err.ebadmsg
          else
            set_leaf_insert b l ofs bufsz key keySize ktag h val_len base_entry n
              (hashScan b n h 0 (readU32 b (n + 32) &&& LITE3_NODE_KEY_COUNT_MASK))
              (readU32 b (n + 32) &&& LITE3_NODE_KEY_COUNT_MASK) := by
  rw [lite3_set_walk.eq_def]

/-- One-step unfolding of the set walk with tree-height fuel remaining. -/
theorem set_walk_succ (ofs bufsz : Nat) (key : Option (List Nat))
    (keySize ktag h val_len base_entry f : Nat) (buf : Buf) (buflen : Nat)
    (parent : Option (Nat × Nat × Nat)) (nodeOfs : Nat) :
    lite3_set_walk ofs bufsz key keySize ktag h val_len base_entry (f + 1) buf buflen
        parent nodeOfs =
      match
        (if readU32 buf (nodeOfs + 32) &&& LITE3_NODE_KEY_COUNT_MASK =
              LITE3_NODE_KEY_COUNT_MAX then
            match set_split buf buflen ofs bufsz h parent nodeOfs with
            | .cont b l n => Sum.inl (b, l, n)
            | .skip b l p ip =>
                Sum.inr (set_key_match b l bufsz key keySize ktag val_len base_entry p ip)
            | .fail b l e => Sum.inr (SetWalkRes.fail b l e)
          else Sum.inl (buf, buflen, nodeOfs) :
          (Buf × Nat × Nat) ⊕ SetWalkRes) with
      | .inr r => r
      | .inl (b, l, n) =>
          if hashScan b n h 0 (readU32 b (n + 32) &&& LITE3_NODE_KEY_COUNT_MASK) <
                readU32 b (n + 32) &&& LITE3_NODE_KEY_COUNT_MASK ∧
              readU32 b (n + 4 + 4 * hashScan b n h 0
                  (readU32 b (n + 32) &&& LITE3_NODE_KEY_COUNT_MASK)) = h then
            set_key_match b l bufsz key keySize ktag val_len base_entry n
              (hashScan b n h 0 (readU32 b (n + 32) &&& LITE3_NODE_KEY_COUNT_MASK))
          else if readU32 b (n + 64) ≠ 0 then
            if readU32 b (n + 64 + 4 * hashScan b n h 0
                  (readU32 b (n + 32) &&& LITE3_NODE_KEY_COUNT_MASK)) % 4 ≠ 0 then
              SetWalkRes.fail b l Err.ebadmsg
            else if readU32 b (n + 64 + 4 * hashScan b n h 0
                  (readU32 b (n + 32) &&& LITE3_NODE_KEY_COUNT_MASK)) >
                sub64 l LITE3_NODE_SIZE then
              SetWalkRes.fail b l Err.efault
            else
              lite3_set_walk ofs bufsz key keySize ktag h val_len base_entry f b l
                (some (n,
                  hashScan b n h 0 (readU32 b (n + 32) &&& LITE3_NODE_KEY_COUNT_MASK),
                  readU32 b (n + 32) &&& LITE3_NODE_KEY_COUNT_MASK))
                (readU32 b (n + 64 + 4 * hashScan b n h 0
                  (readU32 b (n + 32) &&& LITE3_NODE_KEY_COUNT_MASK)))
          else
            set_leaf_insert b l ofs bufsz key keySize ktag h val_len base_entry n
              (hashScan b n h 0 (readU32 b (n + 32) &&& LITE3_NODE_KEY_COUNT_MASK))
              (readU32 b (n + 32) &&& LITE3_NODE_KEY_COUNT_MASK) := by
  rw [lite3_set_walk.eq_def]

/-- Whatever `split_common` returns, the first four bytes of the buffer (the
root's `gen_type` word lives in bytes 1..3) are untouched and the carried
used length stays at least one node. -/
theorem split_common_low4 (buf : Buf) (bl ofs h nodeOfs pOfs iP kcP : Nat)
    (hbl : 96 ≤ bl) :
    (∀ b l n, split_common buf bl ofs h nodeOfs pOfs iP kcP = .cont b l n →
        (∀ q, q < 4 → byteAt b q = byteAt buf q) ∧ 96 ≤ l) ∧
    (∀ b l p ip, split_common buf bl ofs h nodeOfs pOfs iP kcP = .skip b l p ip →
        (∀ q, q < 4 → byteAt b q = byteAt buf q) ∧ 96 ≤ l) ∧
    (∀ b l e, split_common buf bl ofs h nodeOfs pOfs iP kcP = .fail b l e →
        (∀ q, q < 4 → byteAt b q = byteAt buf q) ∧ 96 ≤ l) := by
  have hns : LITE3_NODE_SIZE = 96 := rfl
  refine ⟨fun b l n heq => ?_, fun b l p ip heq => ?_, fun b l e heq => ?_⟩ <;>
    (simp only [split_common] at heq
     repeat' first
       | (cases heq <;>
           (refine ⟨fun q hq => ?_, by omega⟩
            first
            | rw [byteAt_copyHalfSlots_low bl nodeOfs q hq,
                byteAt_writeU32_out _ (nodeOfs + 64 + 16) _ q (Or.inl (by omega)),
                byteAt_writeU32_out _ (bl + 64) _ q (Or.inl (by omega)),
                byteAt_memsetZ_out q 32 _ (bl + 64) (Or.inl (by omega)),
                byteAt_writeU32_out _ (nodeOfs + 32) _ q (Or.inl (by omega)),
                byteAt_writeU32_out _ (bl + 32) _ q (Or.inl (by omega)),
                byteAt_writeU32_out _ bl _ q (Or.inl (by omega)),
                byteAt_memsetZ_out q 28 _ (bl + 36) (Or.inl (by omega)),
                byteAt_memsetZ_out q 28 _ (bl + 4) (Or.inl (by omega)),
                byteAt_writeU32_out _ (nodeOfs + 36 + 12) _ q (Or.inl (by omega)),
                byteAt_writeU32_out _ (nodeOfs + 4 + 12) _ q (Or.inl (by omega)),
                byteAt_writeU32_out _ (pOfs + 32) _ q (Or.inl (by omega)),
                byteAt_writeU32_out _ (pOfs + 64 + 4 * (iP + 1)) _ q (Or.inl (by omega)),
                byteAt_writeU32_out _ (pOfs + 36 + 4 * iP) _ q (Or.inl (by omega)),
                byteAt_writeU32_out _ (pOfs + 4 + 4 * iP) _ q (Or.inl (by omega)),
                byteAt_shiftParentSlots_low pOfs iP q hq kcP buf]
            | rw [byteAt_writeU32_out _ (nodeOfs + 36 + 12) _ q (Or.inl (by omega)),
                byteAt_writeU32_out _ (nodeOfs + 4 + 12) _ q (Or.inl (by omega)),
                byteAt_writeU32_out _ (pOfs + 32) _ q (Or.inl (by omega)),
                byteAt_writeU32_out _ (pOfs + 64 + 4 * (iP + 1)) _ q (Or.inl (by omega)),
                byteAt_writeU32_out _ (pOfs + 36 + 4 * iP) _ q (Or.inl (by omega)),
                byteAt_writeU32_out _ (pOfs + 4 + 4 * iP) _ q (Or.inl (by omega)),
                byteAt_shiftParentSlots_low pOfs iP q hq kcP buf]))
       | split at heq)

/-- The split block of `lite3_set_impl` preserves the first four bytes and
the big-enough used length, whichever way it exits. -/
theorem set_split_low4 (buf : Buf) (bl ofs bufsz h : Nat)
    (parent : Option (Nat × Nat × Nat)) (nodeOfs : Nat) (hbl : 96 ≤ bl) :
    (∀ b l n, set_split buf bl ofs bufsz h parent nodeOfs = .cont b l n →
        (∀ q, q < 4 → byteAt b q = byteAt buf q) ∧ 96 ≤ l) ∧
    (∀ b l p ip, set_split buf bl ofs bufsz h parent nodeOfs = .skip b l p ip →
        (∀ q, q < 4 → byteAt b q = byteAt buf q) ∧ 96 ≤ l) ∧
    (∀ b l e, set_split buf bl ofs bufsz h parent nodeOfs = .fail b l e →
        (∀ q, q < 4 → byteAt b q = byteAt buf q) ∧ 96 ≤ l) := by
  have hns : LITE3_NODE_SIZE = 96 := rfl
  cases parent with
  | none =>
      refine ⟨fun b l n heq => ?_, fun b l p ip heq => ?_, fun b l e heq => ?_⟩ <;>
        (simp only [set_split] at heq
         repeat' first
           | (cases heq <;>
               (refine ⟨fun q hq => ?_, by omega⟩
                first
                | rw [byteAt_memcpyWithin_out q LITE3_NODE_SIZE buf
                    (bl + 3 - (bl + 3) % 4) nodeOfs (Or.inl (by omega))]
                | rfl))
           | (have H := (split_common_low4 _ _ ofs h _ ofs 0 0 (by omega)).1 _ _ _ heq
              refine ⟨fun q hq => (H.1 q hq).trans ?_, H.2⟩
              rw [byteAt_writeU32_out _ (ofs + 64) _ q (Or.inl (by omega)),
                byteAt_writeU32_out _ (ofs + 32) _ q (Or.inl (by omega)),
                byteAt_memsetZ_out q 32 _ (ofs + 64) (Or.inl (by omega)),
                byteAt_memsetZ_out q 28 _ (ofs + 36) (Or.inl (by omega)),
                byteAt_memsetZ_out q 28 _ (ofs + 4) (Or.inl (by omega)),
                byteAt_memcpyWithin_out q LITE3_NODE_SIZE buf
                  (bl + 3 - (bl + 3) % 4) nodeOfs (Or.inl (by omega))])
           | (have H := (split_common_low4 _ _ ofs h _ ofs 0 0 (by omega)).2.1 _ _ _ _ heq
              refine ⟨fun q hq => (H.1 q hq).trans ?_, H.2⟩
              rw [byteAt_writeU32_out _ (ofs + 64) _ q (Or.inl (by omega)),
                byteAt_writeU32_out _ (ofs + 32) _ q (Or.inl (by omega)),
                byteAt_memsetZ_out q 32 _ (ofs + 64) (Or.inl (by omega)),
                byteAt_memsetZ_out q 28 _ (ofs + 36) (Or.inl (by omega)),
                byteAt_memsetZ_out q 28 _ (ofs + 4) (Or.inl (by omega)),
                byteAt_memcpyWithin_out q LITE3_NODE_SIZE buf
                  (bl + 3 - (bl + 3) % 4) nodeOfs (Or.inl (by omega))])
           | (have H := (split_common_low4 _ _ ofs h _ ofs 0 0 (by omega)).2.2 _ _ _ heq
              refine ⟨fun q hq => (H.1 q hq).trans ?_, H.2⟩
              rw [byteAt_writeU32_out _ (ofs + 64) _ q (Or.inl (by omega)),
                byteAt_writeU32_out _ (ofs + 32) _ q (Or.inl (by omega)),
                byteAt_memsetZ_out q 32 _ (ofs + 64) (Or.inl (by omega)),
                byteAt_memsetZ_out q 28 _ (ofs + 36) (Or.inl (by omega)),
                byteAt_memsetZ_out q 28 _ (ofs + 4) (Or.inl (by omega)),
                byteAt_memcpyWithin_out q LITE3_NODE_SIZE buf
                  (bl + 3 - (bl + 3) % 4) nodeOfs (Or.inl (by omega))])
           | split at heq)
  | some pk =>
      obtain ⟨pOfs, iP, kcP⟩ := pk
      refine ⟨fun b l n heq => ?_, fun b l p ip heq => ?_, fun b l e heq => ?_⟩ <;>
        (simp only [set_split] at heq
         repeat' first
           | (cases heq <;> exact ⟨fun q hq => rfl, by omega⟩)
           | exact (split_common_low4 buf _ ofs h nodeOfs pOfs iP kcP
               (by omega)).1 _ _ _ heq
           | exact (split_common_low4 buf _ ofs h nodeOfs pOfs iP kcP
               (by omega)).2.1 _ _ _ _ heq
           | exact (split_common_low4 buf _ ofs h nodeOfs pOfs iP kcP
               (by omega)).2.2 _ _ _ heq
           | split at heq)

/-- A collided or failed `key_match_skip` block hands back its input buffer
and used length unchanged (all its writes happen on the success paths). -/
theorem set_key_match_cf (buf : Buf) (bl bufsz : Nat) (key : Option (List Nat))
    (keySize ktag val_len base_entry nodeOfs i : Nat) :
    (∀ bb l, set_key_match buf bl bufsz key keySize ktag val_len base_entry
        nodeOfs i = .coll bb l → bb = buf ∧ l = bl) ∧
    (∀ bb l e, set_key_match buf bl bufsz key keySize ktag val_len base_entry
        nodeOfs i = .fail bb l e → bb = buf ∧ l = bl) := by
  refine ⟨fun bb l heq => ?_, fun bb l e heq => ?_⟩ <;>
    (simp only [set_key_match] at heq
     repeat' first
       | (cases heq <;> exact ⟨rfl, rfl⟩)
       | split at heq)

/-- A failed leaf insert hands back its input buffer and used length, and a
leaf insert never reports a collision. -/
theorem set_leaf_insert_cf (buf : Buf) (bl ofs bufsz : Nat)
    (key : Option (List Nat)) (keySize ktag h val_len base_entry nodeOfs i kc : Nat) :
    (∀ bb l, set_leaf_insert buf bl ofs bufsz key keySize ktag h val_len
        base_entry nodeOfs i kc = .coll bb l → False) ∧
    (∀ bb l e, set_leaf_insert buf bl ofs bufsz key keySize ktag h val_len
        base_entry nodeOfs i kc = .fail bb l e → bb = buf ∧ l = bl) := by
  refine ⟨fun bb l heq => ?_, fun bb l e heq => ?_⟩ <;>
    (simp only [set_leaf_insert] at heq
     repeat' first
       | (cases heq <;> exact ⟨rfl, rfl⟩)
       | (exact SetWalkRes.noConfusion heq)
       | split at heq)

set_option maxRecDepth 40000 in
set_option maxHeartbeats 16000000 in
/-- Any collided or failed set walk leaves the first four bytes of the
buffer unchanged (every write on those paths, splits included, lands at
offset 4 or beyond) and keeps the used length at one node or more. -/
theorem set_walk_low4 (ofs bufsz : Nat) (key : Option (List Nat))
    (keySize ktag h val_len base_entry : Nat) :
    ∀ (fuel : Nat) (buf : Buf) (buflen : Nat) (parent : Option (Nat × Nat × Nat))
      (nodeOfs : Nat), 96 ≤ buflen →
      (∀ bb l, lite3_set_walk ofs bufsz key keySize ktag h val_len base_entry fuel
          buf buflen parent nodeOfs = .coll bb l →
        (∀ q, q < 4 → byteAt bb q = byteAt buf q) ∧ 96 ≤ l) ∧
      (∀ bb l e, lite3_set_walk ofs bufsz key keySize ktag h val_len base_entry fuel
          buf buflen parent nodeOfs = .fail bb l e →
        (∀ q, q < 4 → byteAt bb q = byteAt buf q) ∧ 96 ≤ l) := by
  intro fuel
  induction fuel with
  | zero =>
      intro buf buflen parent nodeOfs hbl
      by_cases hk : readU32 buf (nodeOfs + 32) &&& LITE3_NODE_KEY_COUNT_MASK =
          LITE3_NODE_KEY_COUNT_MAX
      · rcases hsp : set_split buf buflen ofs bufsz h parent nodeOfs with
          ⟨b1, l1, n1⟩ | ⟨b1, l1, p1, ip1⟩ | ⟨b1, l1, e1⟩
        · have HS := (set_split_low4 buf buflen ofs bufsz h parent nodeOfs hbl).1
            b1 l1 n1 hsp
          refine ⟨fun bb l heq => ?_, fun bb l e heq => ?_⟩ <;>
            (rw [set_walk_zero, if_pos hk] at heq
             simp only [hsp] at heq
             repeat' first
               | (obtain ⟨rfl, rfl⟩ := (set_key_match_cf _ _ _ _ _ _ _ _ _ _).1 _ _ heq
                  exact HS)
               | (obtain ⟨rfl, rfl⟩ :=
                    (set_key_match_cf _ _ _ _ _ _ _ _ _ _).2 _ _ _ heq
                  exact HS)
               | exact ((set_leaf_insert_cf _ _ _ _ _ _ _ _ _ _ _ _ _).1 _ _ heq).elim
               | (obtain ⟨rfl, rfl⟩ :=
                    (set_leaf_insert_cf _ _ _ _ _ _ _ _ _ _ _ _ _).2 _ _ _ heq
                  exact HS)
               | (cases heq <;> exact HS)
               | split at heq)
        · have HS := (set_split_low4 buf buflen ofs bufsz h parent nodeOfs hbl).2.1
            b1 l1 p1 ip1 hsp
          refine ⟨fun bb l heq => ?_, fun bb l e heq => ?_⟩ <;>
            (rw [set_walk_zero, if_pos hk] at heq
             simp only [hsp] at heq
             all_goals first
               | (obtain ⟨rfl, rfl⟩ := (set_key_match_cf _ _ _ _ _ _ _ _ _ _).1 _ _ heq
                  exact HS)
               | (obtain ⟨rfl, rfl⟩ :=
                    (set_key_match_cf _ _ _ _ _ _ _ _ _ _).2 _ _ _ heq
                  exact HS))
        · have HS := (set_split_low4 buf buflen ofs bufsz h parent nodeOfs hbl).2.2
            b1 l1 e1 hsp
          refine ⟨fun bb l heq => ?_, fun bb l e heq => ?_⟩ <;>
            (rw [set_walk_zero, if_pos hk] at heq
             simp only [hsp] at heq
             all_goals first
               | (obtain ⟨rfl, rfl, rfl⟩ := heq
                  exact HS)
               | (cases heq <;> exact HS))
      · have HS : (∀ q, q < 4 → byteAt buf q = byteAt buf q) ∧ 96 ≤ buflen :=
          ⟨fun q hq => rfl, hbl⟩
        refine ⟨fun bb l heq => ?_, fun bb l e heq => ?_⟩ <;>
          (rw [set_walk_zero] at heq
           simp only [if_neg hk] at heq
           repeat' first
             | (obtain ⟨rfl, rfl⟩ := (set_key_match_cf _ _ _ _ _ _ _ _ _ _).1 _ _ heq
                exact HS)
             | (obtain ⟨rfl, rfl⟩ := (set_key_match_cf _ _ _ _ _ _ _ _ _ _).2 _ _ _ heq
                exact HS)
             | exact ((set_leaf_insert_cf _ _ _ _ _ _ _ _ _ _ _ _ _).1 _ _ heq).elim
             | (obtain ⟨rfl, rfl⟩ :=
                  (set_leaf_insert_cf _ _ _ _ _ _ _ _ _ _ _ _ _).2 _ _ _ heq
                exact HS)
             | (cases heq <;> exact HS)
             | split at heq)
  | succ f ih =>
      intro buf buflen parent nodeOfs hbl
      by_cases hk : readU32 buf (nodeOfs + 32) &&& LITE3_NODE_KEY_COUNT_MASK =
          LITE3_NODE_KEY_COUNT_MAX
      · rcases hsp : set_split buf buflen ofs bufsz h parent nodeOfs with
          ⟨b1, l1, n1⟩ | ⟨b1, l1, p1, ip1⟩ | ⟨b1, l1, e1⟩
        · have HS := (set_split_low4 buf buflen ofs bufsz h parent nodeOfs hbl).1
            b1 l1 n1 hsp
          refine ⟨fun bb l heq => ?_, fun bb l e heq => ?_⟩ <;>
            (rw [set_walk_succ, if_pos hk] at heq
             simp only [hsp] at heq
             repeat' first
               | (obtain ⟨rfl, rfl⟩ := (set_key_match_cf _ _ _ _ _ _ _ _ _ _).1 _ _ heq
                  exact HS)
               | (obtain ⟨rfl, rfl⟩ :=
                    (set_key_match_cf _ _ _ _ _ _ _ _ _ _).2 _ _ _ heq
                  exact HS)
               | exact ((set_leaf_insert_cf _ _ _ _ _ _ _ _ _ _ _ _ _).1 _ _ heq).elim
               | (obtain ⟨rfl, rfl⟩ :=
                    (set_leaf_insert_cf _ _ _ _ _ _ _ _ _ _ _ _ _).2 _ _ _ heq
                  exact HS)
               | (cases heq <;> exact HS)
               | split at heq
               | exact ⟨fun q hq => (((ih b1 l1 (some (n1,
                      hashScan b1 n1 h 0 (readU32 b1 (n1 + 32) &&& LITE3_NODE_KEY_COUNT_MASK),
                      readU32 b1 (n1 + 32) &&& LITE3_NODE_KEY_COUNT_MASK))
                      (readU32 b1 (n1 + 64 + 4 * hashScan b1 n1 h 0
                        (readU32 b1 (n1 + 32) &&& LITE3_NODE_KEY_COUNT_MASK))) HS.2).1
                      bb l heq).1 q hq).trans (HS.1 q hq),
                    ((ih b1 l1 (some (n1,
                      hashScan b1 n1 h 0 (readU32 b1 (n1 + 32) &&& LITE3_NODE_KEY_COUNT_MASK),
                      readU32 b1 (n1 + 32) &&& LITE3_NODE_KEY_COUNT_MASK))
                      (readU32 b1 (n1 + 64 + 4 * hashScan b1 n1 h 0
                        (readU32 b1 (n1 + 32) &&& LITE3_NODE_KEY_COUNT_MASK))) HS.2).1
                      bb l heq).2⟩
               | exact ⟨fun q hq => (((ih b1 l1 (some (n1,
                      hashScan b1 n1 h 0 (readU32 b1 (n1 + 32) &&& LITE3_NODE_KEY_COUNT_MASK),
                      readU32 b1 (n1 + 32) &&& LITE3_NODE_KEY_COUNT_MASK))
                      (readU32 b1 (n1 + 64 + 4 * hashScan b1 n1 h 0
                        (readU32 b1 (n1 + 32) &&& LITE3_NODE_KEY_COUNT_MASK))) HS.2).2
                      bb l _ heq).1 q hq).trans (HS.1 q hq),
                    ((ih b1 l1 (some (n1,
                      hashScan b1 n1 h 0 (readU32 b1 (n1 + 32) &&& LITE3_NODE_KEY_COUNT_MASK),
                      readU32 b1 (n1 + 32) &&& LITE3_NODE_KEY_COUNT_MASK))
                      (readU32 b1 (n1 + 64 + 4 * hashScan b1 n1 h 0
                        (readU32 b1 (n1 + 32) &&& LITE3_NODE_KEY_COUNT_MASK))) HS.2).2
                      bb l _ heq).2⟩)
        · have HS := (set_split_low4 buf buflen ofs bufsz h parent nodeOfs hbl).2.1
            b1 l1 p1 ip1 hsp
          refine ⟨fun bb l heq => ?_, fun bb l e heq => ?_⟩ <;>
            (rw [set_walk_succ, if_pos hk] at heq
             simp only [hsp] at heq
             all_goals first
               | (obtain ⟨rfl, rfl⟩ := (set_key_match_cf _ _ _ _ _ _ _ _ _ _).1 _ _ heq
                  exact HS)
               | (obtain ⟨rfl, rfl⟩ :=
                    (set_key_match_cf _ _ _ _ _ _ _ _ _ _).2 _ _ _ heq
                  exact HS))
        · have HS := (set_split_low4 buf buflen ofs bufsz h parent nodeOfs hbl).2.2
            b1 l1 e1 hsp
          refine ⟨fun bb l heq => ?_, fun bb l e heq => ?_⟩ <;>
            (rw [set_walk_succ, if_pos hk] at heq
             simp only [hsp] at heq
             all_goals first
               | (obtain ⟨rfl, rfl, rfl⟩ := heq
                  exact HS)
               | (cases heq <;> exact HS))
      · have HS : (∀ q, q < 4 → byteAt buf q = byteAt buf q) ∧ 96 ≤ buflen :=
          ⟨fun q hq => rfl, hbl⟩
        refine ⟨fun bb l heq => ?_, fun bb l e heq => ?_⟩ <;>
          (rw [set_walk_succ] at heq
           simp only [if_neg hk] at heq
           repeat' first
             | (obtain ⟨rfl, rfl⟩ := (set_key_match_cf _ _ _ _ _ _ _ _ _ _).1 _ _ heq
                exact HS)
             | (obtain ⟨rfl, rfl⟩ := (set_key_match_cf _ _ _ _ _ _ _ _ _ _).2 _ _ _ heq
                exact HS)
             | exact ((set_leaf_insert_cf _ _ _ _ _ _ _ _ _ _ _ _ _).1 _ _ heq).elim
             | (obtain ⟨rfl, rfl⟩ :=
                  (set_leaf_insert_cf _ _ _ _ _ _ _ _ _ _ _ _ _).2 _ _ _ heq
                exact HS)
             | (cases heq <;> exact HS)
             | split at heq
             | exact ⟨fun q hq => (((ih buf buflen (some (nodeOfs,
                    hashScan buf nodeOfs h 0 (readU32 buf (nodeOfs + 32) &&& LITE3_NODE_KEY_COUNT_MASK),
                    readU32 buf (nodeOfs + 32) &&& LITE3_NODE_KEY_COUNT_MASK))
                    (readU32 buf (nodeOfs + 64 + 4 * hashScan buf nodeOfs h 0
                      (readU32 buf (nodeOfs + 32) &&& LITE3_NODE_KEY_COUNT_MASK))) HS.2).1
                    bb l heq).1 q hq).trans (HS.1 q hq),
                  ((ih buf buflen (some (nodeOfs,
                    hashScan buf nodeOfs h 0 (readU32 buf (nodeOfs + 32) &&& LITE3_NODE_KEY_COUNT_MASK),
                    readU32 buf (nodeOfs + 32) &&& LITE3_NODE_KEY_COUNT_MASK))
                    (readU32 buf (nodeOfs + 64 + 4 * hashScan buf nodeOfs h 0
                      (readU32 buf (nodeOfs + 32) &&& LITE3_NODE_KEY_COUNT_MASK))) HS.2).1
                    bb l heq).2⟩
             | exact ⟨fun q hq => (((ih buf buflen (some (nodeOfs,
                    hashScan buf nodeOfs h 0 (readU32 buf (nodeOfs + 32) &&& LITE3_NODE_KEY_COUNT_MASK),
                    readU32 buf (nodeOfs + 32) &&& LITE3_NODE_KEY_COUNT_MASK))
                    (readU32 buf (nodeOfs + 64 + 4 * hashScan buf nodeOfs h 0
                      (readU32 buf (nodeOfs + 32) &&& LITE3_NODE_KEY_COUNT_MASK))) HS.2).2
                    bb l _ heq).1 q hq).trans (HS.1 q hq),
                  ((ih buf buflen (some (nodeOfs,
                    hashScan buf nodeOfs h 0 (readU32 buf (nodeOfs + 32) &&& LITE3_NODE_KEY_COUNT_MASK),
                    readU32 buf (nodeOfs + 32) &&& LITE3_NODE_KEY_COUNT_MASK))
                    (readU32 buf (nodeOfs + 64 + 4 * hashScan buf nodeOfs h 0
                      (readU32 buf (nodeOfs + 32) &&& LITE3_NODE_KEY_COUNT_MASK))) HS.2).2
                    bb l _ heq).2⟩)

/-- One-step unfolding of the probe-attempt loop of `lite3_set_impl`. -/
theorem set_probe_succ (buf : Buf) (bl ofs bufsz : Nat) (key : Option (List Nat))
    (kd : KeyData) (ktag base_entry val_len attempt r : Nat) :
    lite3_set_probe buf bl ofs bufsz key kd ktag base_entry val_len attempt (r + 1) =
      match lite3_set_walk ofs bufsz key kd.size ktag
          ((kd.hash + attempt * attempt) % 2 ^ 32) val_len base_entry
          LITE3_TREE_HEIGHT_MAX buf bl none ofs with
      | .done b l v => (b, l, .ok v)
      | .fail b l e => (b, l, .error e)
      | .coll b l =>
          lite3_set_probe b l ofs bufsz key kd ktag base_entry val_len (attempt + 1) r := by
  rw [lite3_set_probe.eq_def]

/-- A probe loop that ends in an error leaves the first four bytes of the
buffer unchanged and keeps the used length at one node or more. -/
theorem set_probe_low4 (ofs bufsz : Nat) (key : Option (List Nat)) (kd : KeyData)
    (ktag base_entry val_len : Nat) :
    ∀ (r attempt : Nat) (buf : Buf) (bl : Nat), 96 ≤ bl →
      ∀ (bb : Buf) (l : Nat) (e : Err),
        lite3_set_probe buf bl ofs bufsz key kd ktag base_entry val_len attempt r =
          (bb, l, .error e) →
        (∀ q, q < 4 → byteAt bb q = byteAt buf q) ∧ 96 ≤ l := by
  intro r
  induction r with
  | zero =>
      intro attempt buf bl hbl bb l e heq
      have heq2 : (buf, bl, (Except.error Err.einval : Except Err Nat)) =
          (bb, l, Except.error e) := heq
      rw [Prod.mk.injEq, Prod.mk.injEq] at heq2
      obtain ⟨rfl, rfl, -⟩ := heq2
      exact ⟨fun q hq => rfl, hbl⟩
  | succ r ih =>
      intro attempt buf bl hbl bb l e heq
      rw [set_probe_succ] at heq
      rcases hw : lite3_set_walk ofs bufsz key kd.size ktag
          ((kd.hash + attempt * attempt) % 2 ^ 32) val_len base_entry
          LITE3_TREE_HEIGHT_MAX buf bl none ofs with ⟨d, dl, dv⟩ | ⟨cb, cl⟩ | ⟨fb, fl, fe⟩ <;>
        simp only [hw] at heq
      · rw [Prod.mk.injEq, Prod.mk.injEq] at heq
        exact Except.noConfusion heq.2.2
      · have HW := (set_walk_low4 ofs bufsz key kd.size ktag
            ((kd.hash + attempt * attempt) % 2 ^ 32) val_len base_entry
            LITE3_TREE_HEIGHT_MAX buf bl none ofs hbl).1 cb cl hw
        have R := ih (attempt + 1) cb cl HW.2 bb l e heq
        exact ⟨fun q hq => (R.1 q hq).trans (HW.1 q hq), R.2⟩
      · have HW := (set_walk_low4 ofs bufsz key kd.size ktag
            ((kd.hash + attempt * attempt) % 2 ^ 32) val_len base_entry
            LITE3_TREE_HEIGHT_MAX buf bl none ofs hbl).2 fb fl fe hw
        rw [Prod.mk.injEq, Prod.mk.injEq] at heq
        obtain ⟨rfl, rfl, -⟩ := heq
        exact HW

/-- C3 (amended): the generation counter is 24 bits wide and wraps. A set
call rejected by argument verification (here all four scalar object setters
and the object-container setter) returns its error without touching the
buffer at all — the generation word included. A `lite3_set_impl` call on the
aligned document root (offset 0) of a buffer whose used length is at least
one node bumps generation `g` to `(g + 1) mod 2^24` at entry, and every
failing engine call still ends with the counter at `(g + 1) mod 2^24` — no
further increment and no restore happens on the failure paths. -/
theorem C3_generation_semantics :
    ((∀ (buf : Buf) (buflen ofs bufsz : Nat) (key : List Nat) (kd : KeyData) (e : Err),
        _lite3_verify_obj_set buf buflen ofs bufsz (some key) = .error e →
          _lite3_set_null_impl buf buflen ofs bufsz key kd = (buf, buflen, .error e)) ∧
      (∀ (buf : Buf) (buflen ofs bufsz : Nat) (key : List Nat) (kd : KeyData)
          (value : Bool) (e : Err),
        _lite3_verify_obj_set buf buflen ofs bufsz (some key) = .error e →
          _lite3_set_bool_impl buf buflen ofs bufsz key kd value =
            (buf, buflen, .error e)) ∧
      (∀ (buf : Buf) (buflen ofs bufsz : Nat) (key : List Nat) (kd : KeyData)
          (value : Nat) (e : Err),
        _lite3_verify_obj_set buf buflen ofs bufsz (some key) = .error e →
          _lite3_set_i64_impl buf buflen ofs bufsz key kd value =
            (buf, buflen, .error e)) ∧
      (∀ (buf : Buf) (buflen ofs bufsz : Nat) (key : List Nat) (kd : KeyData)
          (value : Nat) (e : Err),
        _lite3_verify_obj_set buf buflen ofs bufsz (some key) = .error e →
          _lite3_set_f64_impl buf buflen ofs bufsz key kd value =
            (buf, buflen, .error e)) ∧
      (∀ (buf : Buf) (buflen ofs bufsz : Nat) (key : List Nat) (e : Err),
        _lite3_verify_obj_set buf buflen ofs bufsz (some key) = .error e →
          lite3_set_obj buf buflen ofs bufsz key = (buf, buflen, .error e))) ∧
    (∀ (buf : Buf) (buflen bufsz : Nat) (key : Option (List Nat)) (kd : KeyData)
        (val_len : Nat) (e : Err), 96 ≤ buflen →
      (lite3_set_impl buf buflen 0 bufsz key kd val_len).2.2 = .error e →
        readU32 (lite3_set_impl buf buflen 0 bufsz key kd val_len).1 0 >>> 8 =
          (readU32 buf 0 >>> 8 + 1) % 2 ^ 24) := by
  refine ⟨⟨fun buf buflen ofs bufsz key kd e h => ?_,
      fun buf buflen ofs bufsz key kd value e h => ?_,
      fun buf buflen ofs bufsz key kd value e h => ?_,
      fun buf buflen ofs bufsz key kd value e h => ?_,
      fun buf buflen ofs bufsz key e h => ?_⟩,
    fun buf buflen bufsz key kd val_len e hbl hres => ?_⟩
  · simp only [_lite3_set_null_impl, h]
  · simp only [_lite3_set_bool_impl, h]
  · simp only [_lite3_set_i64_impl, h]
  · simp only [_lite3_set_f64_impl, h]
  · simp only [lite3_set_obj, h]
  · rcases hP : lite3_set_impl buf buflen 0 bufsz key kd val_len with ⟨bb, l, res⟩
    rw [hP] at hres
    have hres2 : res = .error e := hres
    subst hres2
    have hP2 : lite3_set_probe
        (writeU32 buf 0 (readU32 buf 0 % 256 + ((readU32 buf 0 >>> 8 + 1) <<< 8) % 2 ^ 32))
        buflen 0 bufsz key kd (key_tag_size kd.size)
        (key_tag_size kd.size + kd.size + LITE3_VAL_SIZE + val_len) val_len 0
        (if key.isSome then LITE3_HASH_PROBE_MAX else 1) = (bb, l, .error e) := hP
    have HP := set_probe_low4 0 bufsz key kd (key_tag_size kd.size)
        (key_tag_size kd.size + kd.size + LITE3_VAL_SIZE + val_len) val_len
        (if key.isSome then LITE3_HASH_PROBE_MAX else 1) 0
        (writeU32 buf 0 (readU32 buf 0 % 256 + ((readU32 buf 0 >>> 8 + 1) <<< 8) % 2 ^ 32))
        buflen hbl bb l e hP2
    show readU32 bb 0 >>> 8 = (readU32 buf 0 >>> 8 + 1) % 2 ^ 24
    have hr : readU32 bb 0 = readU32
        (writeU32 buf 0 (readU32 buf 0 % 256 + ((readU32 buf 0 >>> 8 + 1) <<< 8) % 2 ^ 32))
        0 := readU32_congr _ _ 0 fun d hd => HP.1 (0 + d) (by omega)
    rw [hr, readU32_writeU32_eq]
    exact gen_bump_arith (readU32 buf 0)

/-- C3 witness: a verify-rejected object set on an array root returns
`EINVAL` with the buffer untouched, and a concrete failing engine call
(`ENOBUFS` on a full 96-byte buffer) still ends with the generation bumped
from 0 to 1. -/
theorem C3_witness :
    (_lite3_verify_obj_set arrBuf LITE3_NODE_SIZE 0 LITE3_NODE_SIZE (some [97]) =
        .error .einval ∧
      _lite3_set_i64_impl arrBuf LITE3_NODE_SIZE 0 LITE3_NODE_SIZE [97]
        (lite3_get_key_data [97]) 5 = (arrBuf, LITE3_NODE_SIZE, .error .einval)) ∧
    ((96 : Nat) ≤ 96 ∧
      (lite3_set_impl zeroBuf 96 0 96 (some [97]) (lite3_get_key_data [97]) 0).2.2 =
        .error .enobufs ∧
      readU32 (lite3_set_impl zeroBuf 96 0 96 (some [97]) (lite3_get_key_data [97]) 0).1
          0 >>> 8 = (readU32 zeroBuf 0 >>> 8 + 1) % 2 ^ 24) :=
  ⟨⟨by decide,
    C3_generation_semantics.1.2.2.1 arrBuf LITE3_NODE_SIZE 0 LITE3_NODE_SIZE [97]
      (lite3_get_key_data [97]) 5 .einval (by decide)⟩,
   ⟨by decide, by decide,
    C3_generation_semantics.2 zeroBuf 96 96 (some [97]) (lite3_get_key_data [97]) 0
      .enobufs (by decide) (by decide)⟩⟩


/-- Every rejection of the common set verifier is `EINVAL`. -/
theorem set_verify_err_einval (buflen ofs bufsz : Nat) (e : Err)
    (h : _lite3_verify_set buflen ofs bufsz = .error e) : e = .einval := by
  simp only [_lite3_verify_set] at h
  repeat' first
    | (cases h <;> rfl)
    | split at h

/-- Every rejection of the array-set verifier is `EINVAL`. -/
theorem arr_verify_err_einval (buf : Buf) (buflen ofs bufsz : Nat) (e : Err)
    (h : _lite3_verify_arr_set buf buflen ofs bufsz = .error e) : e = .einval := by
  simp only [_lite3_verify_arr_set] at h
  rcases hv : _lite3_verify_set buflen ofs bufsz with e' | u <;> simp only [hv] at h
  · cases h
    exact set_verify_err_einval _ _ _ _ hv
  · split at h
    · cases h
      rfl
    · cases h


/-- Every byte of a little-endian read is below 256, so the read is below
`256 ^ n`. -/
theorem readLE_lt : ∀ (n : Nat) (b : Buf) (p : Nat), readLE b p n < 256 ^ n := by
  intro n
  induction n with
  | zero => intro b p; simp [readLE]
  | succ n ih =>
      intro b p
      have h1 : byteAt b p < 256 := Nat.mod_lt _ (by omega)
      have h2 := ih b (p + 1)
      show byteAt b p + 256 * readLE b (p + 1) n < 256 ^ (n + 1)
      rw [pow_succ']
      omega

/-- A 32-bit read fits in 32 bits. -/
theorem readU32_lt (b : Buf) (p : Nat) : readU32 b p < 2 ^ 32 := by
  have h := readLE_lt 4 b p
  show readLE b p 4 < 2 ^ 32
  norm_num at h ⊢
  exact h

/-- Arithmetic of the root entry-count bump: incrementing the key-count bits
and then the size bits turns size `s` into `(s + 1) mod 2^26`. -/
theorem count_chain_arith (w : Nat) (hw : w < 2 ^ 32) :
    ((((w - w % 8) + (w + 1) % 8) % 2 ^ 32 % 64 +
        (((((w - w % 8) + (w + 1) % 8) % 2 ^ 32) >>> 6 + 1) <<< 6) % 2 ^ 32) %
      2 ^ 32) >>> 6 = (w >>> 6 + 1) % 2 ^ 26 := by
  have e1 : ∀ x : Nat, x >>> 6 = x / 64 := fun x => by
    rw [Nat.shiftRight_eq_div_pow]
  have e2 : ∀ x : Nat, x <<< 6 = x * 64 := fun x => by
    rw [Nat.shiftLeft_eq]
  simp only [e1, e2]
  omega

/-- A 32-bit read away from every write window of the leaf-slot shift. -/
theorem readU32_shiftLeafSlots_out (nodeOfs i q : Nat) :
    ∀ (k : Nat) (b : Buf),
      (∀ j', 0 < j' → j' ≤ k →
        (q + 4 ≤ nodeOfs + 4 + 4 * j' ∨ nodeOfs + 4 + 4 * j' + 4 ≤ q) ∧
        (q + 4 ≤ nodeOfs + 36 + 4 * j' ∨ nodeOfs + 36 + 4 * j' + 4 ≤ q)) →
      readU32 (shiftLeafSlots nodeOfs i b k) q = readU32 b q := by
  intro k
  induction k with
  | zero => intro b _; rfl
  | succ k ih =>
      intro b hq
      simp only [shiftLeafSlots]
      split
      · rw [ih _ fun j' h1 h2 => hq j' h1 (by omega),
          readU32_writeU32_out _ (nodeOfs + 36 + 4 * (k + 1)) _ q
            (hq (k + 1) (by omega) (le_refl _)).2,
          readU32_writeU32_out _ (nodeOfs + 4 + 4 * (k + 1)) _ q
            (hq (k + 1) (by omega) (le_refl _)).1]
      · rfl

/-- A 32-bit read below the append point is unchanged by `insert_append`. -/
theorem readU32_insert_append_out (b : Buf) (bl : Nat) (key : Option (List Nat))
    (keySize ktag val_len q : Nat) (hq : q + 4 ≤ bl) :
    readU32 (set_insert_append b bl key keySize ktag val_len).1 q = readU32 b q := by
  cases key with
  | none => rfl
  | some k =>
      show readU32 (writeBytes (writeLE b bl ktag ((keySize <<< 2) ||| (ktag - 1)))
          (bl + ktag) ((keyBytes k).take keySize)) q = readU32 b q
      rw [readU32_writeBytes_out _ (bl + ktag) _ q (Or.inl (by omega)),
        readU32_writeLE_out _ bl ktag _ q (Or.inl (by omega))]

/-- A verified key record starts at or after its stored offset. -/
theorem verify_key_ok_ge (buf : Buf) (bl : Nat) (key : Option (List Nat))
    (ks kt ofs0 newOfs kt' : Nat)
    (h : verify_key buf bl key ks kt ofs0 = .ok newOfs kt') : ofs0 ≤ newOfs := by
  simp only [verify_key] at h
  repeat' first
    | (cases h <;> omega)
    | split at h


set_option maxRecDepth 20000 in
set_option maxHeartbeats 1000000 in
/-- C3: the claim "the generation counter strictly increases across every
mutation attempt (every set call, successful or failed)" fails on a set call
rejected by argument verification: an object-set aimed at an array root
fails with `EINVAL` and leaves the generation word (and the whole buffer)
untouched — here it stays 0. -/
theorem C3_counterexample :
    rejectedSet.2.2 = .error .einval ∧
      readU32 rejectedSet.1 0 >>> 8 = readU32 arrBuf 0 >>> 8 ∧
      readU32 arrBuf 0 >>> 8 = 0 := by decide

set_option maxRecDepth 20000 in
set_option maxHeartbeats 4000000 in
/-- C4: the lookup does not proceed to the next probe attempt on a leaf
miss. In `probeBuf` the key `"a"` (DJB2 hash 177670) is stored under the
attempt-1 probe hash 177671, so the claimed algorithm would find it on the
second attempt — the attempt-1 walk indeed returns `found` — yet
`lite3_get_impl` reports not-found (`ENOENT`) immediately after the
attempt-0 walk reaches the leaf without an equal hash. -/
theorem C4_counterexample :
    lite3_get_impl probeBuf 101 0 (some [97]) (lite3_get_key_data [97]) =
        .error .enoent ∧
      lite3_get_key_data [97] = ⟨177670, 2⟩ ∧
      lite3_get_walk probeBuf 101 (some [97]) 2 1 (177670 + 1 * 1) 0
        LITE3_TREE_HEIGHT_MAX = .found 100 := by decide

/-- One-step unfolding of the probe loop with fuel left. -/
theorem get_probe_succ (buf : Buf) (buflen ofs : Nat) (key : Option (List Nat))
    (kd : KeyData) (ktag a r : Nat) :
    lite3_get_probe buf buflen ofs key kd ktag a (r + 1) =
      if ofs % 4 ≠ 0 then .error .ebadmsg
      else match lite3_get_walk buf buflen key kd.size ktag
          ((kd.hash + a * a) % 2 ^ 32) ofs LITE3_TREE_HEIGHT_MAX with
        | .found v => .ok v
        | .fail e => .error e
        | .coll => lite3_get_probe buf buflen ofs key kd ktag (a + 1) r := rfl

/-- If every one of the next `r` probe attempts ends in a hash collision, the
probe loop exhausts its fuel and reports `EINVAL`. -/
theorem get_probe_all_coll (buf : Buf) (buflen ofs : Nat) (key : Option (List Nat))
    (kd : KeyData) (ktag : Nat) (h4 : ofs % 4 = 0) :
    ∀ (r a : Nat),
      (∀ j, j < r →
        lite3_get_walk buf buflen key kd.size ktag
          ((kd.hash + (a + j) * (a + j)) % 2 ^ 32) ofs LITE3_TREE_HEIGHT_MAX = .coll) →
      lite3_get_probe buf buflen ofs key kd ktag a r = .error .einval := by
  intro r
  induction r with
  | zero => intro a _; rfl
  | succ r ih =>
      intro a hcoll
      have h0 := hcoll 0 (by omega)
      simp only [Nat.add_zero] at h0
      rw [get_probe_succ, if_neg (by omega), h0]
      exact ih (a + 1) fun j hj => by
        have h := hcoll (j + 1) (by omega)
        rw [show a + (j + 1) = a + 1 + j by omega] at h
        exact h

/-- C4 (amended): during object lookup at an aligned container offset, a probe
attempt whose tree walk ends at a leaf without an equal hash makes the whole
lookup fail `ENOENT` immediately (the first walk already decides it), and if
all `LITE3_HASH_PROBE_MAX = 128` attempts end in collisions the lookup fails
`EINVAL` (probe exhaustion), not `ENOENT`. -/
theorem C4_lookup_leaf_and_exhaustion (buf : Buf) (buflen ofs : Nat)
    (key : List Nat) (kd : KeyData) (h4 : ofs % 4 = 0) :
    (lite3_get_walk buf buflen (some key) kd.size (key_tag_size kd.size)
        ((kd.hash + 0 * 0) % 2 ^ 32) ofs LITE3_TREE_HEIGHT_MAX = .fail .enoent →
      lite3_get_impl buf buflen ofs (some key) kd = .error .enoent) ∧
    ((∀ a, a < LITE3_HASH_PROBE_MAX →
        lite3_get_walk buf buflen (some key) kd.size (key_tag_size kd.size)
          ((kd.hash + a * a) % 2 ^ 32) ofs LITE3_TREE_HEIGHT_MAX = .coll) →
      lite3_get_impl buf buflen ofs (some key) kd = .error .einval) := by
  constructor
  · intro hw
    show lite3_get_probe buf buflen ofs (some key) kd (key_tag_size kd.size) 0
        LITE3_HASH_PROBE_MAX = .error .enoent
    rw [show LITE3_HASH_PROBE_MAX = 127 + 1 from rfl, get_probe_succ,
      if_neg (by omega), hw]
  · intro hcoll
    show lite3_get_probe buf buflen ofs (some key) kd (key_tag_size kd.size) 0
        LITE3_HASH_PROBE_MAX = .error .einval
    exact get_probe_all_coll buf buflen ofs (some key) kd (key_tag_size kd.size) h4
      LITE3_HASH_PROBE_MAX 0 fun j hj => by
        have h := hcoll j hj
        rw [Nat.zero_add]
        exact h

set_option maxRecDepth 20000 in
set_option maxHeartbeats 4000000 in
/-- C4 witness: on `probeBuf` the attempt-0 walk for key `"a"` ends at a leaf
miss, and the amended theorem then forces the immediate `ENOENT`. -/
theorem C4_witness :
    (0 : Nat) % 4 = 0 ∧
      lite3_get_impl probeBuf 101 0 (some [97]) (lite3_get_key_data [97]) =
        .error .enoent :=
  ⟨by decide, (C4_lookup_leaf_and_exhaustion probeBuf 101 0 [97]
      (lite3_get_key_data [97]) (by decide)).1 (by decide)⟩

set_option maxRecDepth 20000 in
set_option maxHeartbeats 4000000 in
/-- C6: after the root split forced by inserting an 8th key into a full
root, the left split node (the root's new first child, at offset 96) holds
only `LITE3_NODE_KEY_COUNT_MIN = 3` keys — less than the claimed minimum
`⌈7/2⌉ = 4`. -/
theorem C6_counterexample :
    splitRes.2.2 = .ok () ∧
      readU32 splitRes.1 64 = 96 ∧
      readU32 splitRes.1 (96 + 32) &&& LITE3_NODE_KEY_COUNT_MASK = 3 ∧
      ¬ (3 : Nat) ≥ 4 := by decide

/-- A 32-bit read away from every write window of the split's copy loop. -/
theorem readU32_copyHalfSlots_out (sib nodeOfs q : Nat) :
    ∀ (n j : Nat) (b : Buf),
      (∀ j', j ≤ j' → j' < j + n →
        (q + 4 ≤ sib + 4 + 4 * j' ∨ sib + 4 + 4 * j' + 4 ≤ q) ∧
        (q + 4 ≤ sib + 36 + 4 * j' ∨ sib + 36 + 4 * j' + 4 ≤ q) ∧
        (q + 4 ≤ sib + 64 + 4 * (j' + 1) ∨ sib + 64 + 4 * (j' + 1) + 4 ≤ q) ∧
        (q + 4 ≤ nodeOfs + 4 + 4 * (j' + 4) ∨ nodeOfs + 4 + 4 * (j' + 4) + 4 ≤ q) ∧
        (q + 4 ≤ nodeOfs + 36 + 4 * (j' + 4) ∨ nodeOfs + 36 + 4 * (j' + 4) + 4 ≤ q) ∧
        (q + 4 ≤ nodeOfs + 64 + 4 * (j' + 5) ∨ nodeOfs + 64 + 4 * (j' + 5) + 4 ≤ q)) →
      readU32 (copyHalfSlots b sib nodeOfs j n) q = readU32 b q := by
  intro n
  induction n with
  | zero => intro j b _; rfl
  | succ n ih =>
      intro j b hq
      obtain ⟨w1, w2, w3, w4, w5, w6⟩ := hq j (le_refl j) (by omega)
      show readU32 (copyHalfSlots _ sib nodeOfs (j + 1) n) q = _
      rw [ih (j + 1) _ fun j' hj1 hj2 => hq j' (by omega) (by omega)]
      rw [readU32_writeU32_out _ _ _ _ (by omega), readU32_writeU32_out _ _ _ _ (by omega),
        readU32_writeU32_out _ _ _ _ (by omega), readU32_writeU32_out _ _ _ _ (by omega),
        readU32_writeU32_out _ _ _ _ (by omega), readU32_writeU32_out _ _ _ _ (by omega)]

/-- C6 (amended): whatever branch `split_common` takes, when the new sibling
offset (`buflen`) is 4-aligned and lies past the split node, both nodes
produced by the split carry a key count of exactly
`LITE3_NODE_KEY_COUNT_MIN = LITE3_NODE_KEY_COUNT_MAX / 2 = 3` — the C
division rounds down, so the post-split minimum occupancy is 3, not the
claimed `⌈7/2⌉ = 4`. -/
theorem C6_split_min_occupancy (buf : Buf) (buflen ofs h nodeOfs pOfs iP kcP : Nat)
    (hn : nodeOfs + LITE3_NODE_SIZE ≤ buflen) (hsib : buflen % 4 = 0) :
    (readU32 (SplitRes.bufOf (split_common buf buflen ofs h nodeOfs pOfs iP kcP))
        (nodeOfs + LITE3_NODE_SIZE_KC_OFFSET) &&& LITE3_NODE_KEY_COUNT_MASK =
      LITE3_NODE_KEY_COUNT_MIN) ∧
    (readU32 (SplitRes.bufOf (split_common buf buflen ofs h nodeOfs pOfs iP kcP))
        (buflen + LITE3_NODE_SIZE_KC_OFFSET) &&& LITE3_NODE_KEY_COUNT_MASK =
      LITE3_NODE_KEY_COUNT_MIN) ∧
    LITE3_NODE_KEY_COUNT_MIN = LITE3_NODE_KEY_COUNT_MAX / 2 ∧
    LITE3_NODE_KEY_COUNT_MIN = 3 := by
  have hmin : LITE3_NODE_KEY_COUNT_MIN = 3 := rfl
  have hns : LITE3_NODE_SIZE = 96 := rfl
  have hkc : LITE3_NODE_SIZE_KC_OFFSET = 32 := rfl
  rw [hns] at hn
  refine ⟨?_, ?_, rfl, rfl⟩
  · rw [hkc]
    simp only [split_common]
    rw [if_neg (show ¬(buflen % 4 ≠ 0) by omega)]
    split <;>
      (first
        | rw [if_neg (show ¬(buflen % 4 ≠ 0) by omega)]
        | skip) <;>
      (first
        | split
        | skip) <;>
      (simp only [SplitRes.bufOf]
       rw [readU32_copyHalfSlots_out buflen nodeOfs (nodeOfs + 32)
           LITE3_NODE_KEY_COUNT_MIN 0 _
           (fun j' hj1 hj2 => by
             rw [hmin] at hj2; refine ⟨?_, ?_, ?_, ?_, ?_, ?_⟩ <;> omega),
         readU32_writeU32_out _ (nodeOfs + 64 + 16) _ (nodeOfs + 32) (by omega),
         readU32_writeU32_out _ (buflen + 64) _ (nodeOfs + 32) (by omega),
         readU32_memsetZ_out _ (buflen + 64) 32 (nodeOfs + 32) (by omega),
         readU32_writeU32_eq]
       decide)
  · rw [hkc]
    simp only [split_common]
    rw [if_neg (show ¬(buflen % 4 ≠ 0) by omega)]
    split <;>
      (first
        | rw [if_neg (show ¬(buflen % 4 ≠ 0) by omega)]
        | skip) <;>
      (first
        | split
        | skip) <;>
      (simp only [SplitRes.bufOf]
       rw [readU32_copyHalfSlots_out buflen nodeOfs (buflen + 32)
           LITE3_NODE_KEY_COUNT_MIN 0 _
           (fun j' hj1 hj2 => by
             rw [hmin] at hj2; refine ⟨?_, ?_, ?_, ?_, ?_, ?_⟩ <;> omega),
         readU32_writeU32_out _ (nodeOfs + 64 + 16) _ (buflen + 32) (by omega),
         readU32_writeU32_out _ (buflen + 64) _ (buflen + 32) (by omega),
         readU32_memsetZ_out _ (buflen + 64) 32 (buflen + 32) (by omega),
         readU32_writeU32_out _ (nodeOfs + 32) _ (buflen + 32) (by omega),
         readU32_writeU32_eq]
       decide)

/-- C6 witness: the amended split theorem instantiated at a concrete split of
the node at offset 0 with sibling offset 96 in the all-zero buffer. -/
theorem C6_witness :
    ((0 : Nat) + LITE3_NODE_SIZE ≤ 96 ∧ (96 : Nat) % 4 = 0) ∧
      ((readU32 (SplitRes.bufOf (split_common (fun _ => 0) 96 0 0 0 0 0 0))
          (0 + LITE3_NODE_SIZE_KC_OFFSET) &&& LITE3_NODE_KEY_COUNT_MASK =
        LITE3_NODE_KEY_COUNT_MIN) ∧
      (readU32 (SplitRes.bufOf (split_common (fun _ => 0) 96 0 0 0 0 0 0))
          (96 + LITE3_NODE_SIZE_KC_OFFSET) &&& LITE3_NODE_KEY_COUNT_MASK =
        LITE3_NODE_KEY_COUNT_MIN) ∧
      LITE3_NODE_KEY_COUNT_MIN = LITE3_NODE_KEY_COUNT_MAX / 2 ∧
      LITE3_NODE_KEY_COUNT_MIN = 3) :=
  ⟨⟨by decide, by decide⟩,
    C6_split_min_occupancy (fun _ => 0) 96 0 0 0 0 0 0 (by decide) (by decide)⟩

/-- C5: the claim's key-length tag table is wrong at 16384: the code computes
`(!!(size >> 14) << 1) + !!(size >> 6) + !!size = 4`, not the claimed 3, for
a key byte length of 16384. -/
theorem C5_counterexample : key_tag_size 16384 = 4 ∧ (4 : Nat) ≠ 3 := by decide

/-- C5 (amended): for key byte lengths (including NUL) of at least 1, the
computed key-length tag size is 1 byte on [1,63], 2 bytes on [64,16383], and
4 bytes for 16384 and above; a 3-byte tag is never produced. -/
theorem C5_key_tag_size_ranges (size : Nat) (h1 : 1 ≤ size) :
    key_tag_size size =
      if size ≤ 63 then 1 else if size ≤ 16383 then 2 else 4 := by
  unfold key_tag_size
  simp only [Nat.shiftRight_eq_div_pow]
  norm_num
  split_ifs <;> omega

/-- C5 witness: the amended statement evaluated at size 100. -/
theorem C5_witness :
    1 ≤ 100 ∧
      key_tag_size 100 =
        if (100 : Nat) ≤ 63 then 1 else if (100 : Nat) ≤ 16383 then 2 else 4 :=
  ⟨by decide, C5_key_tag_size_ranges 100 (by decide)⟩

/-- C7: with capacity one byte short of a node, `lite3_init_obj` fails with
the invalid-argument error (`EINVAL`), not the out-of-space error
(`ENOBUFS`) the claim names. -/
theorem C7_counterexample :
    errOf (lite3_init_obj zeroBuf 95) = some .einval ∧ Err.einval ≠ Err.enobufs := by
  decide

/-- C7 (amended): `lite3_init_obj` and `lite3_init_arr` succeed (writing back
used length NodeSize) when the capacity is exactly NodeSize = 96, and fail
with the invalid-argument error when the capacity is smaller. -/
theorem C7_init_boundary (buf : Buf) (bufsz : Nat) (hlt : bufsz < LITE3_NODE_SIZE) :
    (∃ b, lite3_init_obj buf LITE3_NODE_SIZE = .ok (b, LITE3_NODE_SIZE)) ∧
      (∃ b, lite3_init_arr buf LITE3_NODE_SIZE = .ok (b, LITE3_NODE_SIZE)) ∧
      lite3_init_obj buf bufsz = .error .einval ∧
      lite3_init_arr buf bufsz = .error .einval := by
  refine ⟨⟨_lite3_init_impl buf 0 LITE3_TYPE_OBJECT, ?_⟩,
    ⟨_lite3_init_impl buf 0 LITE3_TYPE_ARRAY, ?_⟩, ?_, ?_⟩ <;>
    simp [lite3_init_obj, lite3_init_arr, hlt]

/-- C7 witness: the amended statement at capacity 95 on a zero buffer. -/
theorem C7_witness :
    (95 : Nat) < LITE3_NODE_SIZE ∧
      ((∃ b, lite3_init_obj zeroBuf LITE3_NODE_SIZE = .ok (b, LITE3_NODE_SIZE)) ∧
        (∃ b, lite3_init_arr zeroBuf LITE3_NODE_SIZE = .ok (b, LITE3_NODE_SIZE)) ∧
        lite3_init_obj zeroBuf 95 = .error .einval ∧
        lite3_init_arr zeroBuf 95 = .error .einval) :=
  ⟨by decide, C7_init_boundary zeroBuf 95 (by decide)⟩

end Lite3
